import Mathlib

/-!
Verification development for the credit-card statement extraction engine
(`backend/extractors/amex.py`, `backend/extractors/svb.py`,
`backend/extractors/bradesco.py`, `backend/services/name_normalizer.py`).

The extractors are shallowly embedded from the lines stage onward: the input
is the ordered list of text lines that `pdfplumber` produced for a document
(the PDF layout step itself is an external collaborator, out of scope).
Python floats are modelled as rationals (`ℚ`); `float(...)` string conversion
is modelled by `pyFloat?`, which accepts exactly the sign/digits/decimal-point
forms the monetary tokens can take and rejects everything else (no exponent
forms occur in statement text).  Python `str` helpers (`strip`, `lower`,
`title`, `split`, `replace`) are embedded over `List Char`; whitespace is
`Char.isWhitespace`, which covers every whitespace character appearing in
statement text.  The handful of specific regular expressions used by the
extractors are embedded as dedicated recognizer functions; where Python's
backtracking order can influence the match (lazy groups, optional groups),
the recognizers reproduce that order, as noted at each definition.
-/

namespace Expenses

/-! ### Python string primitives -/

/-- ASCII uppercase plus the accented Latin letters that occur in the
statement texts handled by the extractors (Python `str.upper`). -/
def upChar (c : Char) : Char :=
  if c = 'ç' then 'Ç' else if c = 'é' then 'É' else if c = 'ê' then 'Ê'
  else if c = 'ó' then 'Ó' else if c = 'ã' then 'Ã' else if c = 'á' then 'Á'
  else if c = 'í' then 'Í' else if c = 'ú' then 'Ú' else if c = 'ô' then 'Ô'
  else if c = 'õ' then 'Õ' else if c = 'â' then 'Â' else c.toUpper

/-- ASCII lowercase plus the accented Latin letters that occur in the
statement texts handled by the extractors (Python `str.lower`). -/
def loChar (c : Char) : Char :=
  if c = 'Ç' then 'ç' else if c = 'É' then 'é' else if c = 'Ê' then 'ê'
  else if c = 'Ó' then 'ó' else if c = 'Ã' then 'ã' else if c = 'Á' then 'á'
  else if c = 'Í' then 'í' else if c = 'Ú' then 'ú' else if c = 'Ô' then 'ô'
  else if c = 'Õ' then 'õ' else if c = 'Â' then 'â' else c.toLower

def pyUpper (s : String) : String := ⟨s.data.map upChar⟩

def pyLower (s : String) : String := ⟨s.data.map loChar⟩

/-- A cased character, for `str.title`'s word-boundary detection. -/
def isCasedChar (c : Char) : Bool :=
  c.isAlpha ∨ c ∈ ['ç', 'Ç', 'é', 'É', 'ê', 'Ê', 'ó', 'Ó', 'ã', 'Ã', 'á', 'Á',
    'í', 'Í', 'ú', 'Ú', 'ô', 'Ô', 'õ', 'Õ', 'â', 'Â']

/-- Python `str.title`: uppercase a cased character that follows a non-cased
character, lowercase every other cased character. -/
def pyTitleChars : Bool → List Char → List Char
  | _, [] => []
  | prevCased, c :: rest =>
    if isCasedChar c then
      (if prevCased then loChar c else upChar c) :: pyTitleChars true rest
    else
      c :: pyTitleChars false rest

def pyTitle (s : String) : String := ⟨pyTitleChars false s.data⟩

def trimWsL (cs : List Char) : List Char := cs.dropWhile Char.isWhitespace

def trimWsR (cs : List Char) : List Char :=
  (cs.reverse.dropWhile Char.isWhitespace).reverse

/-- Python `str.strip()` on a character list. -/
def trimWs (cs : List Char) : List Char := trimWsR (trimWsL cs)

def pyStrip (s : String) : String := ⟨trimWs s.data⟩

/-- Python `str.strip(chars)`: remove the given characters from both ends. -/
def stripChars (set : List Char) (s : String) : String :=
  ⟨((s.data.dropWhile (· ∈ set)).reverse.dropWhile (· ∈ set)).reverse⟩

def isPrefixChars : List Char → List Char → Bool
  | [], _ => true
  | _ :: _, [] => false
  | a :: as, b :: bs => a = b && isPrefixChars as bs

/-- Python `in` on strings (substring search), over character lists. -/
def containsSubChars : List Char → List Char → Bool
  | _, [] => true
  | [], _ :: _ => false
  | hay@(_ :: t), pat => isPrefixChars pat hay || containsSubChars t pat

def containsSub (hay pat : String) : Bool := containsSubChars hay.data pat.data

/-- Python `str.startswith` (also used for Lean-side prefix tests; defined
over character lists so the kernel can evaluate it). -/
def startsWithStr (s pre : String) : Bool := isPrefixChars pre.data s.data

/-- Python `str.endswith`, over character lists. -/
def endsWithStr (s suf : String) : Bool := isPrefixChars suf.data.reverse s.data.reverse

/-- Python `sep.join(parts)` / `String.intercalate`, over lists. -/
def joinSep (sep : String) (parts : List String) : String :=
  match parts with
  | [] => ""
  | p :: ps => ps.foldl (fun acc q => acc ++ sep ++ q) p

/-- Python `str.split()` with no argument: split on whitespace runs,
dropping empty fragments.  The fuel argument is the length of the scanned
list; every recursive step consumes at least one character. -/
def pySplitAux : Nat → List Char → List (List Char)
  | 0, _ => []
  | _ + 1, [] => []
  | fuel + 1, c :: rest =>
    if c.isWhitespace then pySplitAux fuel rest
    else
      let word := (c :: rest).takeWhile (fun d => ¬ d.isWhitespace)
      word :: pySplitAux fuel ((c :: rest).drop word.length)

def pySplitChars (cs : List Char) : List (List Char) := pySplitAux cs.length cs

def pySplit (s : String) : List String := (pySplitChars s.data).map (⟨·⟩)

/-- Python `str.replace(pat, rep)`: non-overlapping, left-to-right.  The
fuel argument is the length of the scanned list, which bounds the number of
scan steps since every step consumes at least one character. -/
def replaceChars (pat rep : List Char) : Nat → List Char → List Char
  | 0, cs => cs
  | _ + 1, [] => []
  | fuel + 1, c :: rest =>
    if pat ≠ [] ∧ isPrefixChars pat (c :: rest) then
      rep ++ replaceChars pat rep fuel ((c :: rest).drop pat.length)
    else
      c :: replaceChars pat rep fuel rest

def pyReplace (s pat rep : String) : String :=
  ⟨replaceChars pat.data rep.data s.data.length s.data⟩

/-- Digit-string value, for Python `int(...)` on an all-digit string. -/
def digitsVal (ds : List Char) : Nat :=
  ds.foldl (fun a c => a * 10 + (c.toNat - '0'.toNat)) 0

/-- Python `float(str)` restricted to the token shapes the extractors feed
it: optional surrounding whitespace, optional sign, then digits with at most
one decimal point (at least one digit overall).  Everything else — including
internal spaces and stray parentheses — raises `ValueError` in Python and is
`none` here. -/
def pyFloat? (s : String) : Option ℚ :=
  let cs := trimWs s.data
  let signed : Bool × List Char :=
    match cs with
    | '-' :: t => (true, t)
    | '+' :: t => (false, t)
    | t => (false, t)
  let ip := signed.2.takeWhile Char.isDigit
  let rest := signed.2.drop ip.length
  let mag : Option ℚ :=
    match rest with
    | [] => if ip = [] then none else some (mkRat (digitsVal ip) 1)
    | '.' :: fr =>
      -- ip.frac as an exact rational, built with `mkRat` (which the kernel
      -- evaluates) rather than `+`/`/`; the value is the same.
      if fr.all Char.isDigit ∧ (ip ≠ [] ∨ fr ≠ []) then
        some (mkRat (digitsVal ip * 10 ^ fr.length + digitsVal fr) (10 ^ fr.length))
      else none
    | _ => none
  mag.map (fun m => if signed.1 then -m else m)

/-- Rational multiplication written through `mkRat` so that the kernel can
evaluate it on concrete inputs; `qmul_eq` identifies it with `*`. -/
def qmul (a b : ℚ) : ℚ := mkRat (a.num * b.num) (a.den * b.den)

/-- Rational division written through `mkRat` so that the kernel can
evaluate it on concrete inputs; `qdiv_eq` identifies it with `/`. -/
def qdiv (a b : ℚ) : ℚ :=
  if b.num < 0 then mkRat (-(a.num * b.den)) (a.den * b.num.natAbs)
  else mkRat (a.num * b.den) (a.den * b.num.toNat)

/-- Round-half-up on ℚ, written through integer division so that the kernel
can evaluate it; `roundInt_eq` identifies it with `round`. -/
def roundInt (q : ℚ) : ℤ := (2 * q.num + (q.den : ℤ)) / ((2 * q.den : ℕ) : ℤ)

def pad2 (n : Nat) : String := if n < 10 then "0" ++ toString n else toString n

def pad4 (n : Nat) : String :=
  if n < 10 then "000" ++ toString n
  else if n < 100 then "00" ++ toString n
  else if n < 1000 then "0" ++ toString n
  else toString n

/-- First-match association-list lookup (Python `dict` access; keys are
inserted at most once, so shadowing never arises). -/
def alookup {β : Type} (l : List (String × β)) (k : String) : Option β :=
  (l.find? (fun p => p.1 = k)).map (·.2)

/-! ### Calendar dates (`datetime.date` arithmetic) -/

structure Date where
  year : Nat
  month : Nat
  day : Nat
deriving DecidableEq, Repr

def isLeap (y : Nat) : Bool := y % 4 = 0 ∧ (y % 100 ≠ 0 ∨ y % 400 = 0)

def daysInMonth (y m : Nat) : Nat :=
  if m = 2 then (if isLeap y then 29 else 28)
  else if m = 4 ∨ m = 6 ∨ m = 9 ∨ m = 11 then 30
  else 31

/-- `datetime - timedelta(days=1)` on the Gregorian calendar. -/
def prevDay (d : Date) : Date :=
  if d.day > 1 then ⟨d.year, d.month, d.day - 1⟩
  else if d.month > 1 then ⟨d.year, d.month - 1, daysInMonth d.year (d.month - 1)⟩
  else ⟨d.year - 1, 12, 31⟩

def subDays (d : Date) : Nat → Date
  | 0 => d
  | n + 1 => prevDay (subDays d n)

/-- `datetime(year, month, day)` constructor validation (raises `ValueError`
outside these bounds, which callers model as `none`). -/
def mkValidDate (y m d : Nat) : Option Date :=
  if 1 ≤ y ∧ y ≤ 9999 ∧ 1 ≤ m ∧ m ≤ 12 ∧ 1 ≤ d ∧ d ≤ daysInMonth y m then
    some ⟨y, m, d⟩
  else none

/-- `strftime("%Y-%m-%d")`. -/
def isoOfDate (d : Date) : String :=
  pad4 d.year ++ "-" ++ pad2 d.month ++ "-" ++ pad2 d.day

/-- `strptime(s, "%Y-%m-%d")`: three dash-separated digit groups forming a
valid calendar date; anything else raises, modelled as `none`. -/
def parseIsoDate (s : String) : Option Date :=
  match s.data.splitOn '-' with
  | [ys, ms, ds] =>
    if ys ≠ [] ∧ ms ≠ [] ∧ ds ≠ [] ∧ ys.all Char.isDigit ∧ ms.all Char.isDigit ∧
        ds.all Char.isDigit then
      mkValidDate (digitsVal ys) (digitsVal ms) (digitsVal ds)
    else none
  | _ => none

/-- `strptime`'s `%y` two-digit year pivot: 00–68 map to 2000–2068,
69–99 map to 1969–1999. -/
def yearOfYY (yy : Nat) : Nat := if yy ≤ 68 then 2000 + yy else 1900 + yy

/-- `strptime(s, "%m/%d/%y")` (or with `-` separator) on a string already
known to be of shape `dd<sep>dd<sep>dd`: validates month and day ranges. -/
def parseMDY (mm dd yy : Nat) : Option Date := mkValidDate (yearOfYY yy) mm dd

/-! ### Name normalizer (`backend/services/name_normalizer.py`) -/

/-- Canonical names, in source order (`CANONICAL_NAMES`). -/
def CANONICAL_NAMES : List String :=
  ["Scott Sobel", "Clifford Sobel", "Doug Smith", "Michael Nicklas",
   "Paulo Passoni", "Antoine Colaco", "Carlos Costa", "Daniel Schulman",
   "Kelli Spangler-Ballard", "Felipe Mendes"]

/-- Alias table (`NAME_ALIASES`), in source order. -/
def NAME_ALIASES : List (String × String) :=
  [("scott sobel", "Scott Sobel"), ("s. sobel", "Scott Sobel"),
   ("s sobel", "Scott Sobel"), ("s.sobel", "Scott Sobel"),
   ("sobel, scott", "Scott Sobel"),
   ("clifford sobel", "Clifford Sobel"), ("c. sobel", "Clifford Sobel"),
   ("c sobel", "Clifford Sobel"), ("c.sobel", "Clifford Sobel"),
   ("cliff sobel", "Clifford Sobel"), ("sobel, clifford", "Clifford Sobel"),
   ("doug smith", "Doug Smith"), ("john douglas smith", "Doug Smith"),
   ("j. douglas smith", "Doug Smith"), ("j douglas smith", "Doug Smith"),
   ("j.douglas smith", "Doug Smith"), ("j.d. smith", "Doug Smith"),
   ("j.d smith", "Doug Smith"), ("jd smith", "Doug Smith"),
   ("john d. smith", "Doug Smith"), ("john d smith", "Doug Smith"),
   ("douglas smith", "Doug Smith"), ("smith, john", "Doug Smith"),
   ("smith, j. douglas", "Doug Smith"), ("smith, john douglas", "Doug Smith"),
   ("smith, doug", "Doug Smith"), ("d. smith", "Doug Smith"),
   ("d smith", "Doug Smith"),
   ("michael nicklas", "Michael Nicklas"), ("m. nicklas", "Michael Nicklas"),
   ("m nicklas", "Michael Nicklas"), ("m.nicklas", "Michael Nicklas"),
   ("mike nicklas", "Michael Nicklas"), ("nicklas, michael", "Michael Nicklas"),
   ("paulo passoni", "Paulo Passoni"), ("p. passoni", "Paulo Passoni"),
   ("p passoni", "Paulo Passoni"), ("p.passoni", "Paulo Passoni"),
   ("passoni, paulo", "Paulo Passoni"),
   ("antoine colaco", "Antoine Colaco"), ("antoine colaço", "Antoine Colaco"),
   ("a. colaço", "Antoine Colaco"), ("a. colaco", "Antoine Colaco"),
   ("a colaço", "Antoine Colaco"), ("a colaco", "Antoine Colaco"),
   ("a.colaço", "Antoine Colaco"), ("a.colaco", "Antoine Colaco"),
   ("colaço, antoine", "Antoine Colaco"), ("colaco, antoine", "Antoine Colaco"),
   ("dan schulman", "Daniel Schulman"),
   ("carlos costa", "Carlos Costa"), ("c. costa", "Carlos Costa"),
   ("c costa", "Carlos Costa"), ("c.costa", "Carlos Costa"),
   ("costa, carlos", "Carlos Costa"),
   ("kelli spangler-ballard", "Kelli Spangler-Ballard"),
   ("kelli spanglerballard", "Kelli Spangler-Ballard"),
   ("kelli spangler ballard", "Kelli Spangler-Ballard"),
   ("kelli spangler", "Kelli Spangler-Ballard"),
   ("k. spangler", "Kelli Spangler-Ballard"),
   ("k spangler", "Kelli Spangler-Ballard"),
   ("k.spangler", "Kelli Spangler-Ballard"),
   ("spangler, kelli", "Kelli Spangler-Ballard"),
   ("spanglerballard, kelli", "Kelli Spangler-Ballard"),
   ("spangler-ballard, kelli", "Kelli Spangler-Ballard"),
   ("felipe mendes", "Felipe Mendes"), ("felipe m santos", "Felipe Mendes"),
   ("felipe m. santos", "Felipe Mendes"), ("f. mendes", "Felipe Mendes"),
   ("f mendes", "Felipe Mendes"), ("f.mendes", "Felipe Mendes"),
   ("mendes, felipe", "Felipe Mendes"), ("santos, felipe m", "Felipe Mendes"),
   ("santos, felipe", "Felipe Mendes")]

/-- Card-type suffixes removed before the alias lookup, in source order. -/
def CARD_SUFFIXES : List String :=
  [" - amex", " - visa", " - mastercard", " - mc", " - bradesco"]

/-- The suffix-removal loop: for each suffix in order, if the current string
ends with it, chop it off and strip again. -/
def stripCardSuffix (s : String) : String :=
  CARD_SUFFIXES.foldl
    (fun acc suf =>
      if endsWithStr acc suf then pyStrip ⟨acc.data.take (acc.data.length - suf.data.length)⟩
      else acc)
    s

/-- The `cleaned` intermediate of `normalize_name`:
`name.strip().lower()`, suffix removal, then `" ".join(cleaned.split())`. -/
def cleanedOf (name : String) : String :=
  joinSep " " (pySplit (stripCardSuffix (pyLower (pyStrip name))))

/-- The `no_periods` intermediate of `normalize_name`:
`cleaned.replace(".", " ").replace("  ", " ").strip()`. -/
def noPeriodsOf (name : String) : String :=
  pyStrip (pyReplace (pyReplace (cleanedOf name) "." " ") "  " " ")

/-- The surname / first-initial heuristic: take the last token of `cleaned`
as surname; for each canonical name (in order) whose lowercase form ends in
that surname, accept it when the first token of `cleaned` starts with the
canonical first name's leading character. -/
def surnameHit (cleaned : String) : Option String :=
  match (pySplit cleaned).getLast? with
  | none => none
  | some surname =>
    CANONICAL_NAMES.findSome? (fun canonical =>
      if endsWithStr (pyLower canonical) surname then
        let first_part := (pySplit cleaned).headD ""
        let canonical_first := pyLower ((pySplit canonical).headD "")
        match canonical_first.data.head? with
        | some c0 => if startsWithStr first_part ⟨[c0]⟩ then some canonical else none
        | none => none
      else none)

/-- `normalize_name` (`name_normalizer.py`): alias lookup, then the lookup
with periods replaced, then the surname heuristic, then Title Case fallback.
An empty (falsy) input is returned unchanged. -/
def normalize_name (name : String) : String :=
  if name = "" then name
  else
    let cleaned := cleanedOf name
    match alookup NAME_ALIASES cleaned with
    | some c => c
    | none =>
      match alookup NAME_ALIASES (noPeriodsOf name) with
      | some c => c
      | none =>
        match surnameHit cleaned with
        | some c => c
        | none => pyTitle name

/-! ### Amex extractor (`backend/extractors/amex.py`) -/

namespace Amex

/-- Character image of the two dash replacements of `normalize`. -/
def replDash (c : Char) : Char := if c = '–' then '-' else if c = '−' then '-' else c

/-- Underlying list form of `normalize`: the two single-character dash
replacements are character maps, removal of the diamond glyph is a filter,
and `strip()` trims both ends. -/
def normChars (cs : List Char) : List Char :=
  trimWs ((cs.map replDash).filter (fun c => c ≠ '⧫'))

/-- `normalize` (`amex.py`): map unicode dashes to `-`, drop `⧫`, strip. -/
def normalize (s : String) : String := ⟨normChars s.data⟩

/-- `clean_amount` (`amex.py`): normalize, drop `$` and `,`, strip; a fully
parenthesised numeric token becomes negative; then `float(...)`. -/
def parenNumFull (cs : List Char) : Bool :=
  -- re.fullmatch(r"\(\s*\d+(?:\.\d{2})?\s*\)", t)
  match cs with
  | '(' :: rest =>
    let r1 := rest.dropWhile Char.isWhitespace
    let ds := r1.takeWhile Char.isDigit
    if ds = [] then false
    else
      let r2 := r1.drop ds.length
      let r3 : Option (List Char) :=
        match r2 with
        | '.' :: a :: b :: r => if a.isDigit ∧ b.isDigit then some r else none
        | '.' :: _ => none
        | _ => some r2
      match r3 with
      | none => false
      | some r4 => r4.dropWhile Char.isWhitespace = [')']
  | _ => false

def clean_amount (token : String) : Option ℚ :=
  let t := pyStrip (pyReplace (pyReplace (normalize token) "$" "") "," "")
  if parenNumFull t.data then pyFloat? ("-" ++ pyStrip (stripChars ['(', ')'] t))
  else pyFloat? t

/-- `DATE_RE` = `^(\d{2}/\d{2}/\d{2})\s+(.*)$`: the greedy `\s+` consumes the
maximal whitespace run, the rest of the line is the second group. -/
def dateMatch (line : String) : Option (String × String) :=
  match line.data with
  | a :: b :: '/' :: c :: d :: '/' :: e :: f :: rest =>
    if (a.isDigit ∧ b.isDigit) ∧ (c.isDigit ∧ d.isDigit) ∧ (e.isDigit ∧ f.isDigit) then
      let ws := rest.takeWhile Char.isWhitespace
      if ws = [] then none
      else some (⟨[a, b, '/', c, d, '/', e, f]⟩, ⟨rest.drop ws.length⟩)
    else none
  | _ => none

/-- First alternative of `AMOUNT_TOKEN_RE`,
`-?\$\s*\d{1,3}(?:,\d{3})*(?:\.\d{2})?`, matched as a prefix of `cs`; returns
the matched length.  All groups after the digits are optional, so Python's
greedy first attempt is the match whenever one exists. -/
def starThousands (sep : Char) : Nat → List Char → Nat × List Char
  | 0, cs => (0, cs)
  | fuel + 1, cs =>
    match cs with
    | c :: a :: b :: d :: rest =>
      if c = sep ∧ a.isDigit ∧ b.isDigit ∧ d.isDigit then
        let (n, r) := starThousands sep fuel rest
        (n + 4, r)
      else (0, cs)
    | _ => (0, cs)

def optCents (cs : List Char) : Nat × List Char :=
  -- (?:\.\d{2})? taken greedily: present only when '.' is followed by two digits
  match cs with
  | '.' :: a :: b :: rest => if a.isDigit ∧ b.isDigit then (3, rest) else (0, cs)
  | _ => (0, cs)

def amexAlt1Core (t : List Char) : Option Nat :=
  -- the `\s*\d{1,3}(?:,\d{3})*(?:\.\d{2})?` part after the dollar sign
  let ws := t.takeWhile Char.isWhitespace
  let t1 := t.drop ws.length
  let run := t1.takeWhile Char.isDigit
  if run = [] then none
  else
    let dn := min run.length 3
    let (nStar, r1) := starThousands ',' (t1.drop dn).length (t1.drop dn)
    let (nCents, _) := optCents r1
    some (ws.length + dn + nStar + nCents)

def amexAlt1 : List Char → Option Nat
  | '-' :: '$' :: t => (amexAlt1Core t).map (· + 2)
  | '$' :: t => (amexAlt1Core t).map (· + 1)
  | _ => none

/-- Second alternative of `AMOUNT_TOKEN_RE`,
`\(\s*\d{1,3}(?:,\d{3})*(?:\.\d{2})?\s*\)`, matched as a prefix.  The
mandatory closing parenthesis makes the greedy parse decisive: whenever an
optional group is takeable, skipping it strands a character (`,`, `.`, or a
digit) that nothing later in the pattern can match. -/
def amexAlt2 (cs : List Char) : Option Nat :=
  match cs with
  | '(' :: t =>
    let ws1 := t.takeWhile Char.isWhitespace
    let t1 := t.drop ws1.length
    let run := t1.takeWhile Char.isDigit
    if run = [] ∨ run.length > 3 then none
    else
      let (nStar, r1) := starThousands ',' (t1.drop run.length).length (t1.drop run.length)
      let (nCents, r2) := optCents r1
      let ws2 := r2.takeWhile Char.isWhitespace
      match r2.drop ws2.length with
      | ')' :: _ =>
        some (1 + ws1.length + run.length + nStar + nCents + ws2.length + 1)
      | _ => none
  | _ => none

/-- `AMOUNT_TOKEN_RE` at one position: alternatives in pattern order. -/
def matchAmountAt (cs : List Char) : Option Nat :=
  match amexAlt1 cs with
  | some n => some n
  | none => amexAlt2 cs

/-- `finditer`: scan left to right, non-overlapping, resuming after each
match; yields `(start, end)` index pairs. -/
def amountFindAux : Nat → List Char → Nat → List (Nat × Nat)
  | 0, _, _ => []
  | _ + 1, [], _ => []
  | fuel + 1, cs@(_ :: t), pos =>
    match matchAmountAt cs with
    | some n => (pos, pos + n) :: amountFindAux fuel (cs.drop n) (pos + n)
    | none => amountFindAux fuel t (pos + 1)

def amountFinditer (s : String) : List (Nat × Nat) :=
  amountFindAux s.data.length s.data 0

/-- `block[a:b]` string slice. -/
def strSlice (s : String) (a b : Nat) : String := ⟨(s.data.drop a).take (b - a)⟩

/-- `re.sub(r"\s{2,}", " ", s)`: each maximal whitespace run of length ≥ 2
becomes a single space; an isolated whitespace character is left as-is. -/
def squeezeWs : Nat → List Char → List Char
  | 0, cs => cs
  | _ + 1, [] => []
  | fuel + 1, c :: rest =>
    let nextWs : Bool := match rest.head? with | some d => d.isWhitespace | none => false
    if c.isWhitespace ∧ nextWs then
      ' ' :: squeezeWs fuel (rest.dropWhile Char.isWhitespace)
    else c :: squeezeWs fuel rest

def subMultiWs (s : String) : String := ⟨squeezeWs s.data.length s.data⟩

/-- `extract_amount_and_clean` (`amex.py`): normalize the blob, find every
amount token, take the last one as the amount, and excise it from the
description, collapsing whitespace and trimming `" -|,"`. -/
def extract_amount_and_clean (desc_block : String) : Option ℚ × String :=
  let block := normalize desc_block
  match (amountFinditer block).getLast? with
  | none => (none, block)
  | some m =>
    let amt_raw := strSlice block m.1 m.2
    let amount := clean_amount amt_raw
    let b1 := pyStrip (strSlice block 0 m.1 ++ strSlice block m.2 block.data.length)
    (amount, stripChars [' ', '-', '|', ','] (subMultiWs b1))

def FEES_START : List String := ["FEES"]

def INTEREST_START : List String := ["INTEREST CHARGED"]

def SECTION_END : List String :=
  ["TOTAL FEES FOR THIS PERIOD", "TOTAL INTEREST CHARGED FOR THIS PERIOD",
   "ABOUT TRAILING INTEREST", "IMPORTANT NOTICES"]

def SKIP_PREFIXES : List String :=
  ["FOREIGN", "SPEND", "AMOUNT", "DETAIL", "CONTINUED ON NEXT PAGE"]

def feesStartHit (u : String) : Bool := FEES_START.any (startsWithStr u ·)

def interestStartHit (u : String) : Bool := INTEREST_START.any (startsWithStr u ·)

def sectionEndHit (u : String) : Bool := SECTION_END.any (startsWithStr u ·)

def skipPrefixHit (u : String) : Bool := SKIP_PREFIXES.any (startsWithStr u ·)

/-- `\w` character for the `\b` boundary in `PAGE_FOOTER_RE` (alphanumeric,
underscore, or a non-ASCII letter; statement text has no exotic symbols). -/
def isWordChar (c : Char) : Bool := c.isAlphanum ∨ c = '_' ∨ c.toNat > 127

/-- `PAGE_FOOTER_RE` = `\bp\.\s*\d+/\d+\s*$` (ignorecase), searched on the
normalized line.  The end anchor makes the suffix structure decisive, so the
check parses the line from its end. -/
def footerCheck (cs : List Char) : Bool :=
  let r0 := cs.reverse.dropWhile Char.isWhitespace
  let d1 := r0.takeWhile Char.isDigit
  if d1 = [] then false
  else
    match r0.drop d1.length with
    | '/' :: r2 =>
      let d2 := r2.takeWhile Char.isDigit
      if d2 = [] then false
      else
        let r4 := (r2.drop d2.length).dropWhile Char.isWhitespace
        match r4 with
        | '.' :: p :: r5 =>
          let boundaryOk : Bool := match r5 with | [] => true | q :: _ => ¬ isWordChar q
          (p = 'p' ∨ p = 'P') ∧ boundaryOk
        | _ => false
    | _ => false

def is_page_footer (line : String) : Bool := footerCheck (normalize line).data

def headerCharsOk (cs : List Char) : Bool :=
  -- re.fullmatch(r"[A-Z .'\-]+", line)
  cs ≠ [] ∧ cs.all (fun c => ('A' ≤ c ∧ c ≤ 'Z') ∨ c = ' ' ∨ c = '.' ∨ c = '\'' ∨ c = '-')

/-- `is_cardholder_header` (`amex.py`): an all-caps line over the allowed
character set whose next up-to-3 lines mention `CARD ENDING`,
`ACCOUNT ENDING`, or `CLOSING DATE`. -/
def is_cardholder_header (lines : List String) (i : Nat) : Option String :=
  let line := normalize (lines.getD i "")
  if line = "" then none
  else if line ≠ pyUpper line then none
  else if ¬ headerCharsOk line.data then none
  else
    let look := joinSep " "
      ((List.range 3).filterMap (fun k =>
        if i + k + 1 < lines.length then some (normalize (lines.getD (i + k + 1) ""))
        else none))
    let lup := pyUpper look
    if containsSub lup "CARD ENDING" ∨ containsSub lup "ACCOUNT ENDING" ∨
        containsSub lup "CLOSING DATE" then
      some line
    else none

inductive SkipKind where
  | fees
  | interest
deriving DecidableEq

structure AmexTx where
  date : String
  description : String
  amount : Option ℚ
deriving DecidableEq

structure AmexRecord where
  date : String
  description : String
  amount : Option ℚ
  cardholder : String
deriving DecidableEq

/-- Scan state of the `extract_amex` main loop: the per-holder transaction
lists (`all_cardholders`, insertion-ordered), the open holder, and the
section-skip state (`skip_mode`; `none` is NORMAL). -/
structure AmexState where
  holders : List (String × List AmexTx)
  current : Option String
  skip : Option SkipKind
deriving DecidableEq

/-- `all_cardholders.setdefault(k, [])`. -/
def setdefault (l : List (String × List AmexTx)) (k : String) :
    List (String × List AmexTx) :=
  if l.any (fun p => p.1 = k) then l else l ++ [(k, [])]

/-- `all_cardholders[k].append(tx)` (the key is always present when called). -/
def appendAt (l : List (String × List AmexTx)) (k : String) (tx : AmexTx) :
    List (String × List AmexTx) :=
  l.map (fun p => if p.1 = k then (p.1, p.2 ++ [tx]) else p)

/-- All transactions recorded so far, across holders. -/
def allTxs (st : AmexState) : List AmexTx := (st.holders.map (·.2)).flatten

/-- The inner block-assembly loop of `extract_amex` (lines 124–142): collect
continuation lines from index `j` until a terminating classification, dropping
skip-prefix and footer lines; returns the collected lines and the index of the
terminating line.  Fuel bounds the scan; each step moves one line forward. -/
def consumeBlock (lines : List String) : Nat → Nat → List String × Nat
  | 0, j => ([], j)
  | fuel + 1, j =>
    if j < lines.length then
      let nxt := normalize (lines.getD j "")
      let up := pyUpper nxt
      if (is_cardholder_header lines j).isSome then ([], j)
      else if (dateMatch nxt).isSome then ([], j)
      else if feesStartHit up ∨ interestStartHit up then ([], j)
      else if sectionEndHit up then ([], j)
      else if skipPrefixHit up ∨ is_page_footer nxt then consumeBlock lines fuel (j + 1)
      else
        let (bs, jf) := consumeBlock lines fuel (j + 1)
        (nxt :: bs, jf)
    else ([], j)

/-- `strptime(date_s, "%m/%d/%y").strftime("%Y-%m-%d")`, keeping the raw
string on failure. -/
def amexDateFmt (date_s : String) : String :=
  match date_s.data with
  | [a, b, _, c, d, _, e, f] =>
    match parseMDY (digitsVal [a, b]) (digitsVal [c, d]) (digitsVal [e, f]) with
    | some dt => isoOfDate dt
    | none => date_s
  | _ => date_s

/-- One iteration of the `extract_amex` main loop at line index `i < N`:
returns the next index and state.  Mirrors the branch order of the source:
cardholder header; fees / interest section start (NORMAL only); the skip-mode
branch (which on a header, footer or section-end marker resets to NORMAL
without consuming the line); skip-prefix / footer noise; transaction start
(assembling the block and emitting one record); otherwise advance. -/
def amexStep (lines : List String) (i : Nat) (st : AmexState) : Nat × AmexState :=
  let line := normalize (lines.getD i "")
  let upper := pyUpper line
  match is_cardholder_header lines i with
  | some h =>
    let holder := pyTitle h
    (i + 1, ⟨setdefault st.holders holder, some holder, none⟩)
  | none =>
    if st.skip = none ∧ feesStartHit upper then
      (i + 1, { st with skip := some SkipKind.fees })
    else if st.skip = none ∧ interestStartHit upper then
      (i + 1, { st with skip := some SkipKind.interest })
    else if st.skip ≠ none then
      if (is_cardholder_header lines i).isSome ∨ is_page_footer line ∨ sectionEndHit upper then
        (i, { st with skip := none })
      else (i + 1, st)
    else if skipPrefixHit upper ∨ is_page_footer line then (i + 1, st)
    else
      match dateMatch line, st.current with
      | some (date_s, first_desc0), some holder =>
        let first_desc := pyStrip first_desc0
        let date_fmt := amexDateFmt date_s
        let start : List String := if first_desc = "" then [] else [first_desc]
        let (more, jf) := consumeBlock lines lines.length (i + 1)
        let block_text :=
          pyStrip (joinSep " " ((start ++ more).filter (fun b => b ≠ "")))
        let (amount, description) := extract_amount_and_clean block_text
        (jf, { st with holders := appendAt st.holders holder ⟨date_fmt, description, amount⟩ })
      | _, _ => (i + 1, st)

/-- The main loop, driven by fuel.  Each index is visited at most twice (a
skip-mode reset revisits the line once in NORMAL mode), so `2·N + 2` steps
always complete the scan. -/
def amexLoop (lines : List String) : Nat → Nat → AmexState → AmexState
  | 0, _, st => st
  | fuel + 1, i, st =>
    if i < lines.length then
      let (i', st') := amexStep lines i st
      amexLoop lines fuel i' st'
    else st

structure AmexResult where
  card_type : String
  transactions : List AmexRecord
  cardholders : List String
deriving DecidableEq

/-- `extract_amex` from the lines stage: run the scan, then flatten,
normalizing each holder name; `list(set(...))` of the normalized holder
names is modelled as deduplication (`List.dedup`), which preserves exactly
the membership structure of the Python set. -/
def extract_amex (lines : List String) : AmexResult :=
  let st := amexLoop lines (2 * lines.length + 2) 0 ⟨[], none, none⟩
  let transactions := st.holders.flatMap
    (fun p => p.2.map (fun tx => AmexRecord.mk tx.date tx.description tx.amount
      (normalize_name p.1)))
  ⟨"amex", transactions, (st.holders.map (fun p => normalize_name p.1)).dedup⟩

end Amex

/-! ### SVB extractor (`backend/extractors/svb.py`) -/

namespace Svb

/-- `normalize` (`svb.py`); textually identical to the Amex one. -/
def normalize (s : String) : String := ⟨Amex.normChars s.data⟩

/-- `clean_amount` (`svb.py`): strip, drop `$` and `,`; any token of the form
`( ... )` becomes `-` followed by the token with all leading and trailing
parentheses stripped; map long dashes to `-`; then `float(...)`. -/
def clean_amount (raw_value : String) : Option ℚ :=
  let value := pyReplace (pyReplace (pyStrip raw_value) "$" "") "," ""
  let value :=
    match value.data with
    | '(' :: rest =>
      if rest.getLast? = some ')' then "-" ++ stripChars ['(', ')'] value else value
    | _ => value
  pyFloat? (pyStrip (pyReplace (pyReplace value "–" "-") "−" "-"))

/-- Exact match of the amount group
`\(?-?\$?\d{1,3}(?:,\d{3})*(?:\.\d{2})?\)?` against an entire suffix (the
group is anchored by `$`).  Every choice point is decisive: an optional
leading `(`, `-`, `$` can never be matched later, the digit group must take
the whole run (at most 3 digits), a skipped thousands group or cents group
strands a `,` or `.`. -/
def amtExact (cs0 : List Char) : Bool :=
  let cs1 := match cs0 with | '(' :: t => t | t => t
  let cs2 := match cs1 with | '-' :: t => t | t => t
  let cs3 := match cs2 with | '$' :: t => t | t => t
  let ds := cs3.takeWhile Char.isDigit
  if ds = [] ∨ ds.length > 3 then false
  else
    let (_, r1) := Amex.starThousands ',' (cs3.drop ds.length).length (cs3.drop ds.length)
    let (_, r2) := Amex.optCents r1
    match r2 with
    | [] => true
    | [')'] => true
    | _ => false

/-- The lazy description search of the SVB transaction pattern
`(.+?)\s+(amount)$`: the description grows one character at a time from the
left; at each whitespace boundary the maximal following whitespace run is
consumed (the amount group cannot start with whitespace) and the remainder is
tested as an exact amount. -/
def svbDescSearch : Nat → List Char → List Char → Option (List Char × List Char)
  | 0, _, _ => none
  | _ + 1, _, [] => none
  | fuel + 1, acc, c :: t =>
    let here : Option (List Char × List Char) :=
      if acc ≠ [] ∧ c.isWhitespace then
        let after := (c :: t).dropWhile Char.isWhitespace
        if after ≠ [] ∧ amtExact after then some (acc.reverse, after) else none
      else none
    match here with
    | some r => some r
    | none => svbDescSearch fuel (c :: acc) t

/-- The first `\s+` of the pattern is greedy: whitespace counts are tried
from maximal down to 1, the lazy description search runs inside each. -/
def svbWs1Loop (rest : List Char) : Nat → Option (List Char × List Char)
  | 0 => none
  | n + 1 =>
    match svbDescSearch (rest.drop (n + 1)).length [] (rest.drop (n + 1)) with
    | some r => some r
    | none => svbWs1Loop rest n

/-- `re.match(r"(\d{2}-\d{2}-\d{2})\s+(.+?)\s+(\(?-?\$?\d{1,3}(?:,\d{3})*(?:\.\d{2})?\)?)$", line.strip())`:
returns the `(date, description, amount)` groups. -/
def matchSvbLine (line : String) : Option (String × String × String) :=
  let cs := trimWs line.data
  match cs with
  | a :: b :: '-' :: c :: d :: '-' :: e :: f :: rest =>
    if (a.isDigit ∧ b.isDigit) ∧ (c.isDigit ∧ d.isDigit) ∧ (e.isDigit ∧ f.isDigit) then
      match svbWs1Loop rest (rest.takeWhile Char.isWhitespace).length with
      | some (desc, amt) => some (⟨[a, b, '-', c, d, '-', e, f]⟩, ⟨desc⟩, ⟨amt⟩)
      | none => none
    else none
  | _ => none

structure SvbTx where
  date : String
  description : String
  amount : ℚ
  mcc : Option String
  merchant_zip : Option String
  cardholder : String
deriving DecidableEq

/-- `parse_transaction_line` (`svb.py`): match the pattern, reformat the
date (keeping the raw string on failure), clean the amount — and return
`None`, dropping the line, when the amount fails to parse.  `mcc` and
`merchant_zip` are `none` until the flush step sets them. -/
def parse_transaction_line (line : String) : Option SvbTx :=
  match matchSvbLine line with
  | none => none
  | some (date_str, desc, raw_amount) =>
    let date_fmt :=
      match date_str.data with
      | [a, b, _, c, d, _, e, f] =>
        match parseMDY (digitsVal [a, b]) (digitsVal [c, d]) (digitsVal [e, f]) with
        | some dt => isoOfDate dt
        | none => date_str
      | _ => date_str
    match clean_amount raw_amount with
    | none => none
    | some amount =>
      some ⟨date_fmt, pyStrip desc, amount, none, none, ""⟩

/-- `cardholder_pattern` = `^(.*?) TOTAL FOR ACCOUNT ENDING IN \d+.*$`
(ignorecase): the lazy group takes the shortest prefix before the literal
(case-insensitively) followed by at least one digit. -/
def svbHolderLit : List Char := " TOTAL FOR ACCOUNT ENDING IN ".data

def svbHolderAt (cs : List Char) : Bool :=
  let digitNext : Bool :=
    match (cs.drop svbHolderLit.length).head? with
    | some d => d.isDigit
    | none => false
  isPrefixChars svbHolderLit (cs.map upChar) ∧ digitNext

def svbHolderAux : Nat → List Char → Nat → Option Nat
  | 0, _, _ => none
  | fuel + 1, cs, k =>
    if svbHolderAt cs then some k
    else
      match cs with
      | [] => none
      | _ :: t => svbHolderAux fuel t (k + 1)

def matchCardholderSvb (line : String) : Option String :=
  (svbHolderAux (line.data.length + 1) line.data 0).map (fun k => ⟨line.data.take k⟩)

/-- `re.search(lit + r"\s*(\d+)", context)` for the `MCC:` and
`MERCHANT ZIP:` lookups: first position where the literal occurs followed by
optional whitespace and at least one digit; the digit run is the group. -/
def searchNumAfter (lit : List Char) : Nat → List Char → Option String
  | 0, _ => none
  | fuel + 1, cs =>
    let attempt : Option String :=
      if isPrefixChars lit cs then
        let r := (cs.drop lit.length).dropWhile Char.isWhitespace
        let ds := r.takeWhile Char.isDigit
        if ds = [] then none else some ⟨ds⟩
      else none
    match attempt with
    | some r => some r
    | none =>
      match cs with
      | [] => none
      | _ :: t => searchNumAfter lit fuel t

/-- `re.search(r"Account Number:\s+Ending in\s+(\d+)", line)`. -/
def searchAcct : Nat → List Char → Option String
  | 0, _ => none
  | fuel + 1, cs =>
    let attempt : Option String :=
      if isPrefixChars "Account Number:".data cs then
        let r0 := cs.drop "Account Number:".data.length
        let ws1 := r0.takeWhile Char.isWhitespace
        if ws1 = [] then none
        else
          let r1 := r0.drop ws1.length
          if isPrefixChars "Ending in".data r1 then
            let r2 := r1.drop "Ending in".data.length
            let ws2 := r2.takeWhile Char.isWhitespace
            if ws2 = [] then none
            else
              let ds := (r2.drop ws2.length).takeWhile Char.isDigit
              if ds = [] then none else some ⟨ds⟩
          else none
      else none
    match attempt with
    | some r => some r
    | none =>
      match cs with
      | [] => none
      | _ :: t => searchAcct fuel t

/-- Per-holder sections with `setdefault(k, []).extend(vs)` semantics. -/
def extendAt (l : List (String × List SvbTx)) (k : String) (vs : List SvbTx) :
    List (String × List SvbTx) :=
  if l.any (fun p => p.1 = k) then
    l.map (fun p => if p.1 = k then (p.1, p.2 ++ vs) else p)
  else l ++ [(k, vs)]

/-- The flush step run when a cardholder line closes a section: each pending
transaction gets `mcc` / `merchant_zip` from the two lines after it. -/
def withCtx (lines : List String) (q : SvbTx × Nat) : SvbTx :=
  let ctx := joinSep " " ((lines.drop (q.2 + 1)).take 2)
  { q.1 with
    mcc := some ((searchNumAfter "MCC:".data (ctx.data.length + 1) ctx.data).getD "")
    merchant_zip :=
      some ((searchNumAfter "MERCHANT ZIP:".data (ctx.data.length + 1) ctx.data).getD "") }

structure SvbState where
  pending : List (SvbTx × Nat)
  sections : List (String × List SvbTx)
deriving DecidableEq

/-- One iteration of the `extract_svb` line loop: a transaction line is
queued; otherwise a cardholder line flushes the queue (when non-empty) into
that holder's section; otherwise nothing happens. -/
def svbStep (lines : List String) (st : SvbState) (p : Nat × String) : SvbState :=
  match parse_transaction_line p.2 with
  | some tx => { st with pending := st.pending ++ [(tx, p.1)] }
  | none =>
    match matchCardholderSvb p.2 with
    | some raw =>
      if st.pending ≠ [] then
        ⟨[], extendAt st.sections (pyStrip raw) (st.pending.map (withCtx lines))⟩
      else st
    | none => st

structure SvbResult where
  card_type : String
  transactions : List SvbTx
  cardholders : List String
deriving DecidableEq

def containsPayment (description : String) : Bool :=
  containsSub (pyUpper description) "PAYMENT - THANK YOU"

/-- `extract_svb` from the lines stage: scan all lines; leftover pending
transactions (statements without per-cardholder sections) go under an
account-number placeholder holder, without the `mcc` / `merchant_zip`
context pass; then flatten, dropping `PAYMENT - THANK YOU` records and
stamping each record with its section's holder. -/
def extract_svb (lines : List String) : SvbResult :=
  let st := lines.enum.foldl (svbStep lines) ⟨[], []⟩
  let sections :=
    if st.pending ≠ [] then
      let holder_name :=
        match lines.findSome? (fun l => searchAcct (l.data.length + 1) l.data) with
        | some ds => "Account " ++ ds
        | none => "All Transactions"
      extendAt st.sections holder_name (st.pending.map (·.1))
    else st.sections
  let transactions := sections.flatMap
    (fun p => (p.2.filter (fun t => ¬ containsPayment t.description)).map
      (fun t => { t with cardholder := p.1 }))
  ⟨"svb", transactions, sections.map (·.1)⟩

end Svb

/-! ### Bradesco extractor (`backend/extractors/bradesco.py`) -/

namespace Bradesco

/-- `normalize` (`bradesco.py`): non-breaking spaces become spaces, strip;
a falsy (empty) input yields `""`. -/
def normalize (s : String) : String :=
  if s = "" then ""
  else ⟨trimWs (s.data.map (fun c => if c = '\u00A0' then ' ' else c))⟩

/-- `parse_brl_number` (`bradesco.py`): parenthesised or `-`-prefixed tokens
are negative; `R$`, `$` and spaces are dropped; `.` is a thousands separator
(removed) and `,` the decimal mark (becomes `.`); then `float(...)`. -/
def parse_brl_number (tok : String) : Option ℚ :=
  let t := normalize tok
  let (negParen, t) : Bool × String :=
    match t.data with
    | '(' :: rest => if rest.getLast? = some ')' then (true, ⟨rest.dropLast⟩) else (false, t)
    | _ => (false, t)
  let t := pyReplace (pyReplace (pyReplace t "R$" "") "$" "") " " ""
  let t := pyReplace (pyReplace t "." "") "," "."
  let (negDash, t) : Bool × String :=
    match t.data with
    | '-' :: rest => (true, ⟨rest⟩)
    | _ => (false, t)
  (pyFloat? t).map (fun v => if negParen ∨ negDash then -v else v)

/-- Prefix matches of `MONEY_BR` = `\(?-?\d{1,3}(?:\.\d{3})*,\d{2}\)?` at one
position, in Python's backtracking order.  The mandatory `,\d{2}` makes the
leading options and the digit/star groups decisive (a skipped option strands
a character no later group matches); only the trailing `\)?` genuinely
branches, giving at most two candidate lengths, longest first. -/
def moneyCandidates (cs : List Char) : List Nat :=
  let (nParen, cs1) : Nat × List Char :=
    match cs with
    | '(' :: t => (1, t)
    | t => (0, t)
  let (nSign, cs2) : Nat × List Char :=
    match cs1 with
    | '-' :: t => (1, t)
    | t => (0, t)
  let run := cs2.takeWhile Char.isDigit
  if run = [] ∨ run.length > 3 then []
  else
    let (nStar, r1) := Amex.starThousands '.' (cs2.drop run.length).length (cs2.drop run.length)
    match r1 with
    | ',' :: a :: b :: rest =>
      if a.isDigit ∧ b.isDigit then
        let n := nParen + nSign + run.length + nStar + 3
        match rest with
        | ')' :: _ => [n + 1, n]
        | _ => [n]
      else []
    | _ => []

/-- `finditer(MONEY_BR, line)`: scan left to right, taking the first
(greedy) candidate at each position, resuming after each match. -/
def moneyFindAux : Nat → List Char → Nat → List (Nat × Nat)
  | 0, _, _ => []
  | _ + 1, [], _ => []
  | fuel + 1, cs@(_ :: t), pos =>
    match (moneyCandidates cs).head? with
    | some n => (pos, pos + n) :: moneyFindAux fuel (cs.drop n) (pos + n)
    | none => moneyFindAux fuel t (pos + 1)

def moneyFinditer (s : String) : List (Nat × Nat) :=
  moneyFindAux s.data.length s.data 0

/-- `\s+(M)\s*$` tail of the row pattern: at least one whitespace (maximal,
since a money token cannot start with whitespace), a money candidate, and
only whitespace to the end. -/
def rowSearchM2 (cs : List Char) : Option (List Char) :=
  let ws := cs.takeWhile Char.isWhitespace
  if ws = [] then none
  else
    let r := cs.drop ws.length
    (moneyCandidates r).findSome? (fun n =>
      if (r.drop n).all Char.isWhitespace then some (r.take n) else none)

/-- `\s+(M)\s+(M)\s*$`: money candidates for the first group are tried in
backtracking order, each against the second-group search. -/
def rowSearchM1 (cs : List Char) : Option (List Char × List Char) :=
  let ws := cs.takeWhile Char.isWhitespace
  if ws = [] then none
  else
    let r := cs.drop ws.length
    (moneyCandidates r).findSome? (fun n =>
      (rowSearchM2 (r.drop n)).map (fun m2 => (r.take n, m2)))

/-- The lazy description group of the row pattern, growing one character at
a time, each time testing the `\s+(M)\s+(M)\s*$` tail. -/
def rowDescSearch : Nat → List Char → List Char → Option (List Char × List Char × List Char)
  | 0, _, _ => none
  | _ + 1, _, [] => none
  | fuel + 1, acc, c :: t =>
    let here : Option (List Char × List Char × List Char) :=
      if acc ≠ [] then
        (rowSearchM1 (c :: t)).map (fun q => (acc.reverse, q.1, q.2))
      else none
    match here with
    | some r => some r
    | none => rowDescSearch fuel (c :: acc) t

/-- The first `\s+` after the date is greedy: counts from maximal down. -/
def rowWs1Loop (rest : List Char) : Nat → Option (List Char × List Char × List Char)
  | 0 => none
  | n + 1 =>
    match rowDescSearch (rest.drop (n + 1)).length [] (rest.drop (n + 1)) with
    | some r => some r
    | none => rowWs1Loop rest n

/-- `row_re` = `^(\d{2}/\d{2})\s+(.+?)\s+(M)\s+(M)\s*$` with `M = MONEY_BR`:
returns `(ddmm, description, usd_raw, brl_raw)`. -/
def rowMatch (l : String) : Option (String × String × String × String) :=
  match l.data with
  | a :: b :: '/' :: c :: d :: rest =>
    if (a.isDigit ∧ b.isDigit) ∧ (c.isDigit ∧ d.isDigit) then
      match rowWs1Loop rest (rest.takeWhile Char.isWhitespace).length with
      | some (desc, usd, brl) =>
        some (⟨[a, b, '/', c, d]⟩, ⟨desc⟩, ⟨usd⟩, ⟨brl⟩)
      | none => none
    else none
  | _ => none

/-- `re.match(r"^(\d{2}/\d{2})\s+", l)` of the fallback branch: returns the
date group and the end position of the whole match (after the greedy
whitespace run). -/
def datePrefix (cs : List Char) : Option (String × Nat) :=
  match cs with
  | a :: b :: '/' :: c :: d :: rest =>
    if (a.isDigit ∧ b.isDigit) ∧ (c.isDigit ∧ d.isDigit) then
      let ws := rest.takeWhile Char.isWhitespace
      if ws = [] then none else some (⟨[a, b, '/', c, d]⟩, 5 + ws.length)
    else none
  | _ => none

/-- `\w` (unicode word character, approximated as alphanumeric, underscore,
or any non-ASCII character; statement text has no non-ASCII punctuation). -/
def isWordCharB (c : Char) : Bool := c.isAlphanum ∨ c = '_' ∨ c.toNat > 127

/-- `re.search(r"M[eê]s:\s*\w+\/(\d{4})", l, re.IGNORECASE)`: returns the
four-digit year group of the first match. -/
def mesAt (cs : List Char) : Option Nat :=
  match cs with
  | m :: e :: s :: ':' :: rest =>
    if (m = 'M' ∨ m = 'm') ∧ (e = 'e' ∨ e = 'E' ∨ e = 'ê' ∨ e = 'Ê') ∧ (s = 's' ∨ s = 'S') then
      let r1 := rest.dropWhile Char.isWhitespace
      let w := r1.takeWhile isWordCharB
      if w = [] then none
      else
        match r1.drop w.length with
        | '/' :: a :: b :: c :: d :: _ =>
          if (a.isDigit ∧ b.isDigit) ∧ (c.isDigit ∧ d.isDigit) then
            some (digitsVal [a, b, c, d])
          else none
        | _ => none
    else none
  | _ => none

def mesSearchAux : Nat → List Char → Option Nat
  | 0, _ => none
  | fuel + 1, cs =>
    match mesAt cs with
    | some y => some y
    | none =>
      match cs with
      | [] => none
      | _ :: t => mesSearchAux fuel t

def mesYearSearch (l : String) : Option Nat := mesSearchAux (l.data.length + 1) l.data

/-- `re.search(r"^Nome:\s*(.+)$", l, re.IGNORECASE)`: anchored at the line
start; the group is everything after the optional whitespace, non-empty. -/
def nomeMatch (l : String) : Option String :=
  match l.data with
  | n :: o :: m :: e :: ':' :: rest =>
    if (n = 'N' ∨ n = 'n') ∧ (o = 'o' ∨ o = 'O') ∧ (m = 'm' ∨ m = 'M') ∧
        (e = 'e' ∨ e = 'E') then
      let r := rest.dropWhile Char.isWhitespace
      if r = [] then none else some ⟨r⟩
    else none
  | _ => none

/-- `re.search(r"(20\d{2})", joined)`: the first `20dd` occurrence. -/
def year20Aux : Nat → List Char → Option Nat
  | 0, _ => none
  | fuel + 1, cs =>
    match cs with
    | '2' :: '0' :: a :: b :: _ =>
      if a.isDigit ∧ b.isDigit then some (digitsVal ['2', '0', a, b])
      else
        match cs with
        | [] => none
        | _ :: t => year20Aux fuel t
    | [] => none
    | _ :: t => year20Aux fuel t

def year20Search (s : String) : Option Nat := year20Aux (s.data.length + 1) s.data

/-- Year discovery: the last `Mês: <word>/<yyyy>` match wins; otherwise the
first `20dd` in the joined lines; otherwise `datetime.now().year`, passed in
as `nowYear` (the only impure input of the scan). -/
def bradescoYear (lines : List String) (nowYear : Nat) : Nat :=
  match lines.foldl (fun acc l => match mesYearSearch l with
    | some y => some y
    | none => acc) none with
  | some y => y
  | none =>
    match year20Search (joinSep " " lines) with
    | some y => y
    | none => nowYear

/-- Holder discovery: the last `Nome: ...` line wins; default `"Cardholder"`. -/
def bradescoHolder (lines : List String) : String :=
  lines.foldl (fun acc l => match nomeMatch l with
    | some h => pyStrip h
    | none => acc) "Cardholder"

structure BradescoRow where
  date : String
  description : String
  amount_usd : Option ℚ
  amount_brl : Option ℚ
  cardholder : String
deriving DecidableEq

/-- The transaction-row loop body of `extract_bradesco` (lines 111–150):
skip column headers and totals; match the row pattern or fall back to the
last two money tokens on the line; format the date through
`datetime(year, month, day)`, falling back to `day/month/year` using the raw
digit strings; parse both monetary tokens. -/
def parseRowLine (year : Nat) (holder : String) (l : String) : Option BradescoRow :=
  let u := pyUpper l
  if startsWithStr u "DATA HISTÓRICO" ∨ startsWithStr u "DATA HISTORICO" then none
  else if startsWithStr u "TOTAL:" then none
  else
    let groups : Option (String × String × String × String) :=
      match rowMatch l with
      | some g => some g
      | none =>
        let ms := moneyFinditer l
        if ms.length < 2 then none
        else
          match datePrefix l.data with
          | none => none
          | some (ddmm, dEnd) =>
            let mUsd := ms.getD (ms.length - 2) (0, 0)
            let mBrl := ms.getD (ms.length - 1) (0, 0)
            some (ddmm, pyStrip (Amex.strSlice l dEnd mUsd.1),
              Amex.strSlice l mUsd.1 mUsd.2, Amex.strSlice l mBrl.1 mBrl.2)
    match groups with
    | none => none
    | some (ddmm, desc, usd_raw, brl_raw) =>
      let dayS : String := ⟨ddmm.data.take 2⟩
      let monthS : String := ⟨ddmm.data.drop 3⟩
      let date_fmt :=
        match mkValidDate year (digitsVal monthS.data) (digitsVal dayS.data) with
        | some dt => isoOfDate dt
        | none => dayS ++ "/" ++ monthS ++ "/" ++ toString year
      some ⟨date_fmt, pyStrip desc, parse_brl_number usd_raw, parse_brl_number brl_raw, holder⟩

/-- Outcome of one PTAX HTTP call, as seen by `get_cotacao_dolar_ptax`: a
raised/failed request (`err`), or a parsed JSON `value` list, abstracted to
its `cotacaoVenda` numbers. -/
inductive FetchResult where
  | err : FetchResult
  | ok : List ℚ → FetchResult
deriving DecidableEq

/-- The 7-attempt backward walk of `get_cotacao_dolar_ptax` (lines 48–72):
query the date; an exception aborts with `none`; a non-empty quote list
returns its last entry's rate; an empty list steps back one day.  Besides
the rate, the list of dates actually sent to the service is returned, for
stating the network-contact properties. -/
def ptaxWalk (fetch : Date → FetchResult) : Nat → Date → Option ℚ × List Date
  | 0, _ => (none, [])
  | n + 1, dt =>
    match fetch dt with
    | FetchResult.err => (none, [dt])
    | FetchResult.ok valores =>
      match valores.getLast? with
      | some v => (some v, [dt])
      | none =>
        let p := ptaxWalk fetch n (prevDay dt)
        (p.1, dt :: p.2)

/-- Per-run FX cache, keyed (as in the source) by the requested date string. -/
def FxCache : Type := List (String × Option ℚ)

/-- `get_cotacao_dolar_ptax` (`bradesco.py`): a cached date answers without
any network contact; otherwise `strptime(data_iso, "%Y-%m-%d")` (which
raises — `Except.error` — on a malformed date string, e.g. the `d/m/y`
fallback format), then the 7-attempt walk, whose outcome — rate or `none` —
is cached under the originally requested date string.  The third component
lists the dates contacted during the call. -/
def get_cotacao_dolar_ptax (fetch : Date → FetchResult) (data_iso : String)
    (cache : FxCache) : Except Unit (Option ℚ × FxCache × List Date) :=
  match alookup cache data_iso with
  | some v => Except.ok (v, cache, [])
  | none =>
    match parseIsoDate data_iso with
    | none => Except.error ()
    | some dt =>
      let p := ptaxWalk fetch 7 dt
      Except.ok (p.1, (data_iso, p.1) :: cache, p.2)

/-- `round(x, 2)` on the rational model of floats, through the reducible
arithmetic helpers; `round2_eq` states the usual form
`(round (q * 100) : ℤ) / 100`. -/
def round2 (q : ℚ) : ℚ := mkRat (roundInt (qmul q 100)) 100

/-- Lines 158–161 of `extract_bradesco`: the final USD amount.  Python
truthiness makes both a missing and a zero `amount_brl` (and a missing or
zero rate) fall through to `None`. -/
def bradescoFinalAmount (amount_brl : Option ℚ) (fx_rate : Option ℚ) : Option ℚ :=
  match amount_brl, fx_rate with
  | some b, some r => if b ≠ 0 ∧ r ≠ 0 ∧ r > 0 then some (round2 (qdiv b r)) else none
  | _, _ => none

structure BradescoTx where
  date : String
  description : String
  amount : Option ℚ
  amount_brl : Option ℚ
  fx_rate : Option ℚ
  cardholder : String
deriving DecidableEq

/-- The record built for one row once its rate is known (lines 163–170). -/
def mkBradescoTx (r : BradescoRow) (rate : Option ℚ) : BradescoTx :=
  ⟨r.date, r.description, bradescoFinalAmount r.amount_brl rate, r.amount_brl, rate,
    r.cardholder⟩

/-- The FX loop of `extract_bradesco` (lines 153–170), threading the per-run
cache; a date string the cache misses and `strptime` rejects propagates the
exception. -/
def applyFxList (fetch : Date → FetchResult) :
    List BradescoRow → FxCache → Except Unit (List BradescoTx)
  | [], _ => Except.ok []
  | r :: rs, cache =>
    if r.date = "" then
      (applyFxList fetch rs cache).map (fun ts => mkBradescoTx r none :: ts)
    else
      match get_cotacao_dolar_ptax fetch r.date cache with
      | Except.error e => Except.error e
      | Except.ok (rate, cache', _) =>
        (applyFxList fetch rs cache').map (fun ts => mkBradescoTx r rate :: ts)

structure BradescoResult where
  card_type : String
  transactions : List BradescoTx
  cardholders : List String
deriving DecidableEq

/-- `extract_bradesco` from the lines stage: normalize all lines, discover
year and holder, parse the rows, run the FX loop, and return the single raw
holder as the cardholder list. -/
def extract_bradesco (fetch : Date → FetchResult) (nowYear : Nat)
    (lines0 : List String) : Except Unit BradescoResult :=
  let lines := lines0.map normalize
  let year := bradescoYear lines nowYear
  let holder := bradescoHolder lines
  let rows := lines.filterMap (parseRowLine year holder)
  match applyFxList fetch rows [] with
  | Except.error e => Except.error e
  | Except.ok txs => Except.ok ⟨"bradesco", txs, [holder]⟩

end Bradesco

/-! ### Concrete instances used by the claims -/

/-- A PTAX service that always returns a single quote of 5. -/
def fetchFive : Date → Bradesco.FetchResult := fun _ => Bradesco.FetchResult.ok [5]

/-- A PTAX service that always returns an empty quote list. -/
def fetchNone : Date → Bradesco.FetchResult := fun _ => Bradesco.FetchResult.ok []

/-- A PTAX service that always fails with a network error. -/
def fetchErr : Date → Bradesco.FetchResult := fun _ => Bradesco.FetchResult.err

/-- A PTAX service with quotes only on 2024-01-13, two entries deep. -/
def fetchHitTwo : Date → Bradesco.FetchResult := fun d =>
  if d = ⟨2024, 1, 13⟩ then Bradesco.FetchResult.ok [4, 5] else Bradesco.FetchResult.ok []

/-! ### Helper lemmas -/

theorem trimWsL_eq (cs : List Char) :
    trimWsL cs = List.dropWhile Char.isWhitespace cs := rfl

theorem trimWsR_eq_rdropWhile (cs : List Char) :
    trimWsR cs = List.rdropWhile Char.isWhitespace cs := rfl

theorem trimWs_eq (cs : List Char) :
    trimWs cs = List.rdropWhile Char.isWhitespace
      (List.dropWhile Char.isWhitespace cs) := rfl

theorem mem_of_mem_trimWs {c : Char} {cs : List Char} (h : c ∈ trimWs cs) : c ∈ cs := by
  rw [trimWs_eq] at h
  have h1 := (List.rdropWhile_prefix Char.isWhitespace
    (List.dropWhile Char.isWhitespace cs)).sublist.subset h
  exact (List.dropWhile_suffix Char.isWhitespace).sublist.subset h1

theorem trimWs_idem (cs : List Char) : trimWs (trimWs cs) = trimWs cs := by
  simp only [trimWs_eq]
  set y := List.dropWhile Char.isWhitespace cs with hy
  have hyfix : List.dropWhile Char.isWhitespace y = y :=
    List.dropWhile_idempotent Char.isWhitespace cs
  set z := List.rdropWhile Char.isWhitespace y with hz
  have hpre : z <+: y := List.rdropWhile_prefix _ _
  have hzfix : List.dropWhile Char.isWhitespace z = z := by
    rcases hpre with ⟨t, ht⟩
    cases hzlist : z with
    | nil => simp
    | cons a z' =>
      rw [List.dropWhile_cons]
      have hyform : y = a :: (z' ++ t) := by
        rw [← ht, hzlist]
        rfl
      have ha : ¬ Char.isWhitespace a = true := by
        intro hpa
        rw [hyform, List.dropWhile_cons, if_pos hpa] at hyfix
        have hlen := congrArg List.length hyfix
        have hle := (List.dropWhile_suffix
          (l := z' ++ t) Char.isWhitespace).sublist.length_le
        simp only [List.length_cons] at hlen
        omega
      rw [if_neg ha]
  rw [hzfix]
  exact List.rdropWhile_idempotent _ _

theorem replDash_fix (c : Char) : Amex.replDash (Amex.replDash c) = Amex.replDash c := by
  unfold Amex.replDash
  split_ifs <;> simp_all

theorem normChars_idem (cs : List Char) :
    Amex.normChars (Amex.normChars cs) = Amex.normChars cs := by
  have hmem : ∀ c ∈ Amex.normChars cs,
      Amex.replDash c = c ∧ (fun d => decide (d ≠ '⧫')) c = true := by
    intro c hc
    have hx : c ∈ (cs.map Amex.replDash).filter (fun d => decide (d ≠ '⧫')) :=
      mem_of_mem_trimWs hc
    rw [List.mem_filter] at hx
    obtain ⟨hmap, hq⟩ := hx
    rw [List.mem_map] at hmap
    obtain ⟨a, _, rfl⟩ := hmap
    exact ⟨replDash_fix a, hq⟩
  conv_lhs => rw [Amex.normChars]
  have hmapfix : (Amex.normChars cs).map Amex.replDash = Amex.normChars cs := by
    have hcongr := List.map_congr_left (l := Amex.normChars cs)
      (f := Amex.replDash) (g := id) (fun a ha => (hmem a ha).1)
    simpa using hcongr
  rw [hmapfix]
  have hfilfix : (Amex.normChars cs).filter (fun d => decide (d ≠ '⧫')) =
      Amex.normChars cs :=
    List.filter_eq_self.mpr (fun a ha => (hmem a ha).2)
  rw [hfilfix]
  exact trimWs_idem _

theorem qmul_eq (a b : ℚ) : qmul a b = a * b := by
  rw [qmul, Rat.mul_def, Rat.normalize_eq_mkRat]

theorem qdiv_eq (a b : ℚ) : qdiv a b = a / b := by
  rw [Rat.div_def']
  rcases lt_trichotomy b.num 0 with hneg | hzero | hpos
  · rw [qdiv, if_pos hneg, ← Rat.divInt_ofNat]
    have hcast : ((a.den * b.num.natAbs : ℕ) : ℤ) = -((a.den : ℤ) * b.num) := by
      push_cast
      rw [abs_of_neg hneg]
      ring
    rw [hcast, Rat.divInt_neg, Int.neg_neg]
  · rw [qdiv, if_neg (by omega), ← Rat.divInt_ofNat]
    have hcast : ((a.den * b.num.toNat : ℕ) : ℤ) = (a.den : ℤ) * b.num := by
      push_cast [Int.toNat_of_nonneg (le_of_eq hzero.symm)]
      ring
    rw [hcast]
  · rw [qdiv, if_neg (by omega), ← Rat.divInt_ofNat]
    have hcast : ((a.den * b.num.toNat : ℕ) : ℤ) = (a.den : ℤ) * b.num := by
      push_cast [Int.toNat_of_nonneg (le_of_lt hpos)]
      ring
    rw [hcast]

theorem roundInt_eq (q : ℚ) : roundInt q = round q := by
  rw [round_eq, roundInt]
  have hden : ((q.den : ℚ)) ≠ 0 := by exact_mod_cast q.den_nz
  have hq : q + 1 / 2 = ((2 * q.num + (q.den : ℤ) : ℤ) : ℚ) / ((2 * q.den : ℕ) : ℚ) := by
    conv_lhs => rw [← Rat.num_div_den q]
    push_cast
    field_simp
    ring
  rw [hq, Rat.floor_intCast_div_natCast]

theorem round2_eq (q : ℚ) : Bradesco.round2 q = ((round (q * 100) : ℤ) : ℚ) / 100 := by
  rw [Bradesco.round2, Rat.mkRat_eq_div, roundInt_eq, qmul_eq]
  norm_num

/-! ### Claims -/

/-- C9: the text normalizer (`normalize` in `amex.py` and `svb.py`) is a
pure total function and is idempotent: `normalize (normalize s) = normalize s`
for every line `s`. -/
theorem normalize_is_idempotent (s : String) :
    Amex.normalize (Amex.normalize s) = Amex.normalize s ∧
    Svb.normalize (Svb.normalize s) = Svb.normalize s := by
  constructor
  · show (⟨Amex.normChars (Amex.normChars s.data)⟩ : String) = ⟨Amex.normChars s.data⟩
    rw [normChars_idem]
  · show (⟨Amex.normChars (Amex.normChars s.data)⟩ : String) = ⟨Amex.normChars s.data⟩
    rw [normChars_idem]

/-- C5 counterexample: the claim asserts that *every* issuer's normalizer
sends `($10.00)` to `-10.00` and `1.234,56` to `1234.56`; the Bradesco
normalizer `parse_brl_number` treats `.` as a thousands separator and `,` as
the decimal mark, so `($10.00)` becomes `-1000`, and the Amex and SVB
normalizers drop `,` as a thousands separator, so `1.234,56` becomes
`1.23456`. -/
theorem amount_normalizers_disagree :
    Bradesco.parse_brl_number "($10.00)" = some (-1000) ∧
    Bradesco.parse_brl_number "($10.00)" ≠ some (-10) ∧
    Amex.clean_amount "1.234,56" = some 1.23456 ∧
    Amex.clean_amount "1.234,56" ≠ some 1234.56 ∧
    Svb.clean_amount "1.234,56" = some 1.23456 := by
  have hlit1 : (1.23456 : ℚ) = mkRat 123456 100000 := by norm_num [Rat.mkRat_eq_div]
  have hlit2 : (1234.56 : ℚ) = mkRat 123456 100 := by norm_num [Rat.mkRat_eq_div]
  refine ⟨by decide, by decide, ?_, ?_, ?_⟩
  · rw [hlit1]
    decide
  · rw [hlit2]
    decide
  · rw [hlit1]
    decide

/-- C5 (amended): the USD normalizers (`clean_amount` in `amex.py` and
`svb.py`) send `($10.00)` to `-10.00` but parse `1.234,56` as `1.23456`;
the BRL normalizer (`parse_brl_number` in `bradesco.py`) sends `1.234,56`
to `1234.56` but `($10.00)` to `-1000.00`. -/
theorem amount_normalizers_by_locale :
    Amex.clean_amount "($10.00)" = some (-10) ∧
    Svb.clean_amount "($10.00)" = some (-10) ∧
    Bradesco.parse_brl_number "1.234,56" = some 1234.56 ∧
    Amex.clean_amount "1.234,56" = some 1.23456 ∧
    Svb.clean_amount "1.234,56" = some 1.23456 ∧
    Bradesco.parse_brl_number "($10.00)" = some (-1000) := by
  have hlit1 : (1.23456 : ℚ) = mkRat 123456 100000 := by norm_num [Rat.mkRat_eq_div]
  have hlit2 : (1234.56 : ℚ) = mkRat 123456 100 := by norm_num [Rat.mkRat_eq_div]
  refine ⟨by decide, by decide, ?_, ?_, ?_, by decide⟩
  · rw [hlit2]
    decide
  · rw [hlit1]
    decide
  · rw [hlit1]
    decide

/-- C4 counterexample: the claim says the final amount depends only on the
rate and equals `round(amount_brl / fx_rate, 2)` whenever the rate is present
and positive.  On the row `15/01 FOO 1,00 0,00` with a positive rate of 5,
the claim predicts `round(0 / 5, 2) = 0`, but Python truthiness of
`tx["amount_brl"]` (which `0.0` fails) makes the code emit `None`. -/
theorem bradesco_zero_brl_counterexample :
    Bradesco.extract_bradesco fetchFive 2024 ["Mês: janeiro/2024", "15/01 FOO 1,00 0,00"] =
      Except.ok ⟨"bradesco", [⟨"2024-01-15", "FOO", none, some 0, some 5, "Cardholder"⟩],
        ["Cardholder"]⟩ ∧
    ((round ((0 : ℚ) / 5 * 100) : ℤ) : ℚ) / 100 = 0 ∧
    Bradesco.bradescoFinalAmount (some 0) (some 5) = none := by
  refine ⟨by rfl, by norm_num, by decide⟩

/-- C4 (amended): for every Bradesco transaction record, the final amount is
`round(amount_brl / fx_rate, 2)` when the rate is present and strictly
positive *and* `amount_brl` is present and non-zero; it is null otherwise —
in particular a zero or missing BRL amount also forces null, so the choice
does not depend on the rate alone. -/
theorem bradesco_final_amount_rule :
    (∀ (r : Bradesco.BradescoRow) (rate : Option ℚ),
      (Bradesco.mkBradescoTx r rate).amount = Bradesco.bradescoFinalAmount r.amount_brl rate ∧
      (Bradesco.mkBradescoTx r rate).amount_brl = r.amount_brl) ∧
    (∀ b r : ℚ, b ≠ 0 → 0 < r →
      Bradesco.bradescoFinalAmount (some b) (some r) =
        some (((round (b / r * 100) : ℤ) : ℚ) / 100)) ∧
    (∀ ob : Option ℚ, Bradesco.bradescoFinalAmount ob none = none) ∧
    (∀ r : ℚ, Bradesco.bradescoFinalAmount none (some r) = none) ∧
    (∀ r : ℚ, Bradesco.bradescoFinalAmount (some 0) (some r) = none) ∧
    (∀ b r : ℚ, r ≤ 0 → Bradesco.bradescoFinalAmount (some b) (some r) = none) := by
  refine ⟨fun r rate => ⟨rfl, rfl⟩, ?_, ?_, fun r => rfl, ?_, ?_⟩
  · intro b r hb hr
    rw [Bradesco.bradescoFinalAmount, if_pos ⟨hb, ne_of_gt hr, hr⟩, qdiv_eq, round2_eq]
  · intro ob
    cases ob <;> rfl
  · intro r
    rw [Bradesco.bradescoFinalAmount, if_neg]
    intro h
    exact h.1 rfl
  · intro b r hr
    rw [Bradesco.bradescoFinalAmount, if_neg]
    intro h
    exact absurd h.2.2 (not_lt.mpr hr)

/-- C4 witness: the amended rule evaluated at concrete rates. -/
theorem bradesco_final_amount_rule_witness :
    Bradesco.bradescoFinalAmount (some 9) (some 5) =
      some (((round ((9 : ℚ) / 5 * 100) : ℤ) : ℚ) / 100) ∧
    Bradesco.bradescoFinalAmount (some 9) (some (-1)) = none :=
  ⟨bradesco_final_amount_rule.2.1 9 5 (by norm_num) (by norm_num),
   bradesco_final_amount_rule.2.2.2.2.2 9 (-1) (by norm_num)⟩

/-- C8: `normalize_name` is a pure total function over strings: `C. Sobel`,
`Sobel, Clifford` and `Clifford Sobel` all map to the canonical string
`Clifford Sobel`, and any input resolved by none of the alias-table lookup,
the period-stripped lookup, and the surname/first-initial heuristic is
returned in Title Case (never raising: the function is total by
construction). -/
theorem normalize_name_total_function :
    normalize_name "C. Sobel" = "Clifford Sobel" ∧
    normalize_name "Sobel, Clifford" = "Clifford Sobel" ∧
    normalize_name "Clifford Sobel" = "Clifford Sobel" ∧
    ∀ s : String, alookup NAME_ALIASES (cleanedOf s) = none →
      alookup NAME_ALIASES (noPeriodsOf s) = none →
      surnameHit (cleanedOf s) = none →
      normalize_name s = pyTitle s := by
  refine ⟨by decide, by decide, by decide, ?_⟩
  intro s h1 h2 h3
  by_cases hs : s = ""
  · subst hs
    rfl
  · unfold normalize_name
    rw [if_neg hs]
    simp only [h1, h2, h3]

/-- C8 witness: an unrecognized name falls back to Title Case. -/
theorem normalize_name_total_function_witness :
    normalize_name "Unknown Person" = pyTitle "Unknown Person" :=
  normalize_name_total_function.2.2.2 "Unknown Person" (by decide) (by decide) (by decide)

/-- C2 counterexample: the claim says every issuer still emits a record with
a null amount when the monetary token fails to parse.  The SVB line
`01-15-24 FOO (100` matches the transaction pattern with amount token
`(100`, which `clean_amount` cannot parse — and `parse_transaction_line`
returns `None`, so the record is dropped: the extractor's output for the
document is empty rather than a record with a null amount. -/
theorem svb_drop_on_unparsable_amount :
    Svb.matchSvbLine "01-15-24 FOO (100" = some ("01-15-24", "FOO", "(100") ∧
    Svb.clean_amount "(100" = none ∧
    Svb.parse_transaction_line "01-15-24 FOO (100" = none ∧
    (Svb.extract_svb ["01-15-24 FOO (100"]).transactions = [] := by
  refine ⟨by decide, by decide, by decide, by decide⟩

/-- C2 (amended): when the monetary token fails to parse, the Amex and
Bradesco extractors still emit the record with a null amount (and null
`amount_brl` for Bradesco) and the description preserved, but the SVB
extractor's `parse_transaction_line` returns `None` whenever `clean_amount`
fails, dropping the record. -/
theorem partial_amount_policy_by_issuer :
    (∀ (line : String) (d ds tok : String),
      Svb.matchSvbLine line = some (d, ds, tok) →
      Svb.clean_amount tok = none →
      Svb.parse_transaction_line line = none) ∧
    (∀ (block : String) (m : Nat × Nat),
      (Amex.amountFinditer (Amex.normalize block)).getLast? = some m →
      Amex.clean_amount (Amex.strSlice (Amex.normalize block) m.1 m.2) = none →
      (Amex.extract_amount_and_clean block).1 = none) ∧
    (Amex.extract_amex ["JOHN DOE", "CARD ENDING 1234", "01/15/24 FOO -$ 5.00"] =
      ⟨"amex", [⟨"2024-01-15", "FOO", none, "John Doe"⟩], ["John Doe"]⟩ ∧
     Amex.clean_amount "-$ 5.00" = none) ∧
    (Bradesco.extract_bradesco fetchNone 2024 ["Mês: janeiro/2024", "15/01 FOO (1,00 (2,00"] =
      Except.ok ⟨"bradesco", [⟨"2024-01-15", "FOO", none, none, none, "Cardholder"⟩],
        ["Cardholder"]⟩ ∧
     Bradesco.parse_brl_number "(1,00" = none) := by
  refine ⟨?_, ?_, ⟨by rfl, by decide⟩, ⟨by rfl, by decide⟩⟩
  · intro line d ds tok hm ha
    simp only [Svb.parse_transaction_line, hm, ha]
  · intro block m hm ha
    simp only [Amex.extract_amount_and_clean, hm, ha]

/-- C2 witness: the SVB drop conjunct at a concrete line. -/
theorem partial_amount_policy_by_issuer_witness :
    Svb.parse_transaction_line "01-15-24 BAR (250" = none :=
  partial_amount_policy_by_issuer.1 "01-15-24 BAR (250" "01-15-24" "BAR" "(250"
    (by decide) (by decide)

theorem amexAlt1_none {cs : List Char} (hd : '$' ∉ cs) : Amex.amexAlt1 cs = none := by
  unfold Amex.amexAlt1
  split
  · exact absurd (by simp) hd
  · exact absurd (by simp) hd
  · rfl

theorem amexAlt2_none {cs : List Char} (hp : '(' ∉ cs) : Amex.amexAlt2 cs = none := by
  unfold Amex.amexAlt2
  split
  · exact absurd (by simp) hp
  · rfl

theorem matchAmountAt_none {cs : List Char} (hd : '$' ∉ cs) (hp : '(' ∉ cs) :
    Amex.matchAmountAt cs = none := by
  unfold Amex.matchAmountAt
  rw [amexAlt1_none hd, amexAlt2_none hp]

theorem amountFindAux_nil :
    ∀ (fuel : Nat) (cs : List Char) (pos : Nat), '$' ∉ cs → '(' ∉ cs →
      Amex.amountFindAux fuel cs pos = [] := by
  intro fuel
  induction fuel with
  | zero => intro cs pos _ _; rfl
  | succ f ih =>
    intro cs pos hd hp
    cases cs with
    | nil => rfl
    | cons c t =>
      unfold Amex.amountFindAux
      rw [matchAmountAt_none hd hp]
      exact ih t (pos + 1) (fun h => hd (List.mem_cons_of_mem c h))
        (fun h => hp (List.mem_cons_of_mem c h))

theorem allTxs_setdefault (l : List (String × List Amex.AmexTx)) (k : String)
    (c c' : Option String) (sk sk' : Option Amex.SkipKind) :
    Amex.allTxs ⟨Amex.setdefault l k, c, sk⟩ = Amex.allTxs ⟨l, c', sk'⟩ := by
  unfold Amex.allTxs Amex.setdefault
  split
  · rfl
  · simp

/-- C1: while the Amex document scan is in skip state SKIP_FEES or
SKIP_INTEREST (`skip_mode` of `'fees'` or `'interest'`), one loop iteration
never appends a transaction record — regardless of the current line, in
particular even when it matches the transaction-start date pattern — and the
skip state returns to NORMAL (`None`) whenever the line is a section-end
marker or a new cardholder header. -/
theorem amex_skip_suppresses_and_resets (lines : List String) (i : Nat)
    (st : Amex.AmexState) (k : Amex.SkipKind) (hskip : st.skip = some k) :
    Amex.allTxs (Amex.amexStep lines i st).2 = Amex.allTxs st ∧
    ((Amex.sectionEndHit (pyUpper (Amex.normalize (lines.getD i ""))) ∨
        (Amex.is_cardholder_header lines i).isSome) →
      (Amex.amexStep lines i st).2.skip = none) := by
  have hne : st.skip ≠ none := by rw [hskip]; exact Option.some_ne_none k
  cases hh : Amex.is_cardholder_header lines i with
  | some h =>
    constructor
    · unfold Amex.amexStep
      rw [hh]
      exact allTxs_setdefault st.holders (pyTitle h) (some (pyTitle h)) st.current
        none st.skip
    · intro _
      unfold Amex.amexStep
      rw [hh]
  | none =>
    unfold Amex.amexStep
    rw [hh]
    split_ifs
    simp only []
    split_ifs with h1 h2 h3
    · exact absurd h1.1 hne
    · exact absurd h2.1 hne
    · exact ⟨rfl, fun _ => rfl⟩
    · refine ⟨rfl, fun hreset => absurd ?_ h3⟩
      rcases hreset with hsec | hfalse
      · exact Or.inr (Or.inr hsec)
      · exact absurd hfalse (by simp)

/-- C1 witness: the skip-mode step at a concrete section-end line, with a
queued transaction already in the state: nothing is appended and the skip
state resets. -/
theorem amex_skip_suppresses_and_resets_witness :
    Amex.allTxs (Amex.amexStep ["IMPORTANT NOTICES"] 0
      ⟨[("X", [⟨"2024-01-01", "Y", none⟩])], some "X", some Amex.SkipKind.fees⟩).2 =
      Amex.allTxs ⟨[("X", [⟨"2024-01-01", "Y", none⟩])], some "X",
        some Amex.SkipKind.fees⟩ ∧
    (Amex.amexStep ["IMPORTANT NOTICES"] 0
      ⟨[("X", [⟨"2024-01-01", "Y", none⟩])], some "X",
        some Amex.SkipKind.fees⟩).2.skip = none :=
  ⟨(amex_skip_suppresses_and_resets ["IMPORTANT NOTICES"] 0 _ Amex.SkipKind.fees rfl).1,
   (amex_skip_suppresses_and_resets ["IMPORTANT NOTICES"] 0 _ Amex.SkipKind.fees rfl).2
     (Or.inl (by decide))⟩

/-- C6 counterexample: the claim says the monetary-token pattern accepts an
*optional* leading currency symbol; but the bare token `25.00` matches
nothing (the non-parenthesised alternative requires a `$`), while `$25.00`
does match, so the symbol is mandatory for that form.  On a blob whose only
candidate amount lacks the symbol, no amount is extracted and the
description is returned untouched. -/
theorem amex_token_requires_symbol :
    Amex.amountFinditer "25.00" = [] ∧
    Amex.amountFinditer "$25.00" = [(0, 6)] ∧
    Amex.extract_amount_and_clean "FOO 25.00" = (none, "FOO 25.00") := by
  refine ⟨by decide, by decide, by decide⟩

/-- C6 (amended): the Amex monetary-token pattern requires either a leading
`$` (optionally preceded by a minus) or a fully parenthesised bare number —
a blob containing neither `$` nor `(` yields no token at all, so the symbol
is not optional.  When at least one token matches, the last matching token
in the blob is the transaction amount, and the emitted description is the
blob with exactly that token excised, whitespace collapsed, and
`" -|,"` trimmed. -/
theorem amex_last_token_policy :
    (∀ s : String, '$' ∉ s.data → '(' ∉ s.data → Amex.amountFinditer s = []) ∧
    (∀ block : String, Amex.amountFinditer (Amex.normalize block) = [] →
      Amex.extract_amount_and_clean block = (none, Amex.normalize block)) ∧
    (∀ (block : String) (m : Nat × Nat),
      (Amex.amountFinditer (Amex.normalize block)).getLast? = some m →
      Amex.extract_amount_and_clean block =
        (Amex.clean_amount (Amex.strSlice (Amex.normalize block) m.1 m.2),
         stripChars [' ', '-', '|', ','] (Amex.subMultiWs (pyStrip
           (Amex.strSlice (Amex.normalize block) 0 m.1 ++
            Amex.strSlice (Amex.normalize block) m.2
              (Amex.normalize block).data.length))))) := by
  refine ⟨?_, ?_, ?_⟩
  · intro s hd hp
    exact amountFindAux_nil _ _ _ hd hp
  · intro block hnil
    simp only [Amex.extract_amount_and_clean, hnil, List.getLast?_nil]
  · intro block m hm
    simp only [Amex.extract_amount_and_clean, hm]

/-- C6 witness: the last-token policy and the no-symbol conjuncts at
concrete blobs.  In `PROMO $5.00 OFF STUFF $123.45` the last token
`$123.45` (at offsets 22–29) is the amount. -/
theorem amex_last_token_policy_witness :
    Amex.extract_amount_and_clean "PROMO $5.00 OFF STUFF $123.45" =
      (Amex.clean_amount
        (Amex.strSlice (Amex.normalize "PROMO $5.00 OFF STUFF $123.45") 22 29),
       stripChars [' ', '-', '|', ','] (Amex.subMultiWs (pyStrip
         (Amex.strSlice (Amex.normalize "PROMO $5.00 OFF STUFF $123.45") 0 22 ++
          Amex.strSlice (Amex.normalize "PROMO $5.00 OFF STUFF $123.45") 29
            (Amex.normalize "PROMO $5.00 OFF STUFF $123.45").data.length)))) ∧
    Amex.amountFinditer "NO SYMBOL 7.77" = [] :=
  ⟨amex_last_token_policy.2.2 "PROMO $5.00 OFF STUFF $123.45" (22, 29) (by decide),
   amex_last_token_policy.1 "NO SYMBOL 7.77" (by decide) (by decide)⟩

/-- C10: the SVB extractor silently excludes from the returned transactions
every parsed record whose description contains `PAYMENT - THANK YOU`
(case-insensitively, via `.upper()`): no record in the output ever contains
that substring. -/
theorem svb_excludes_payment_thank_you (lines : List String) (tx : Svb.SvbTx)
    (htx : tx ∈ (Svb.extract_svb lines).transactions) :
    Svb.containsPayment tx.description = false := by
  simp only [Svb.extract_svb] at htx
  obtain ⟨p, _, hmem⟩ := List.mem_flatMap.mp htx
  obtain ⟨t, ht, rfl⟩ := List.mem_map.mp hmem
  have hfil := (List.mem_filter.mp ht).2
  simpa using hfil

/-- C10 witness: a normally parsed SVB record passes through the payment
filter; the concrete document has one coffee-shop transaction under one
cardholder section, and the claim's theorem applies to its head record. -/
theorem svb_excludes_payment_thank_you_witness :
    Svb.containsPayment ((Svb.extract_svb ["01-15-24 COFFEE SHOP $5.00",
      "JOHN TOTAL FOR ACCOUNT ENDING IN 1234"]).transactions.headD
        ⟨"", "", 0, none, none, ""⟩).description = false :=
  svb_excludes_payment_thank_you ["01-15-24 COFFEE SHOP $5.00",
    "JOHN TOTAL FOR ACCOUNT ENDING IN 1234"] _ (by decide)

theorem extendAt_keys_nodup {l : List (String × List Svb.SvbTx)} {k : String}
    {vs : List Svb.SvbTx} (h : (l.map (·.1)).Nodup) :
    ((Svb.extendAt l k vs).map (·.1)).Nodup := by
  unfold Svb.extendAt
  split
  · have hmap : (l.map (fun p => if p.1 = k then (p.1, p.2 ++ vs) else p)).map (·.1) =
        l.map (·.1) := by
      rw [List.map_map]
      refine List.map_congr_left (fun p _ => ?_)
      by_cases hp : p.1 = k <;> simp [hp]
    rw [hmap]
    exact h
  · rename_i hany
    rw [List.map_append]
    rw [List.nodup_append]
    refine ⟨h, List.nodup_singleton k, ?_⟩
    intro a ha hb
    simp only [List.map_cons, List.map_nil, List.mem_singleton] at hb
    subst hb
    obtain ⟨p, hp, hfst⟩ := List.mem_map.mp ha
    exact hany (List.any_eq_true.mpr ⟨p, hp, by simp [hfst]⟩)

theorem svbStep_keys_nodup (lines : List String) (st : Svb.SvbState)
    (p : Nat × String) (h : (st.sections.map (·.1)).Nodup) :
    (((Svb.svbStep lines st p).sections).map (·.1)).Nodup := by
  unfold Svb.svbStep
  cases Svb.parse_transaction_line p.2 with
  | some tx => exact h
  | none =>
    cases Svb.matchCardholderSvb p.2 with
    | some raw =>
      show ((if st.pending ≠ [] then
          (⟨[], Svb.extendAt st.sections (pyStrip raw)
            (st.pending.map (Svb.withCtx lines))⟩ : Svb.SvbState)
        else st).sections.map (·.1)).Nodup
      by_cases hp : st.pending ≠ []
      · rw [if_pos hp]
        exact extendAt_keys_nodup h
      · rw [if_neg hp]
        exact h
    | none => exact h

theorem svbFold_keys_nodup (lines : List String) :
    ∀ (l : List (Nat × String)) (st : Svb.SvbState),
      (st.sections.map (·.1)).Nodup →
      ((l.foldl (Svb.svbStep lines) st).sections.map (·.1)).Nodup := by
  intro l
  induction l with
  | nil => intro st h; exact h
  | cons x xs ih =>
    intro st h
    exact ih (Svb.svbStep lines st x) (svbStep_keys_nodup lines st x h)

/-- C7 counterexample: the claim says every issuer returns the de-duplicated
set of *canonical* names, each raw holder passing through `normalize_name`.
Bradesco returns the raw `Nome:` string and SVB returns the raw section keys:
`FELIPE M SANTOS` and `C. SOBEL` appear verbatim in the outputs even though
their canonical forms are `Felipe Mendes` and `Clifford Sobel`. -/
theorem cardholders_not_normalized :
    Bradesco.extract_bradesco fetchFive 2024 ["Nome: FELIPE M SANTOS"] =
      Except.ok ⟨"bradesco", [], ["FELIPE M SANTOS"]⟩ ∧
    normalize_name "FELIPE M SANTOS" = "Felipe Mendes" ∧
    "FELIPE M SANTOS" ≠ "Felipe Mendes" ∧
    (Svb.extract_svb ["01-15-24 COFFEE $5.00",
      "C. SOBEL TOTAL FOR ACCOUNT ENDING IN 1234"]).cardholders = ["C. SOBEL"] ∧
    normalize_name "C. SOBEL" = "Clifford Sobel" := by
  refine ⟨by rfl, by decide, by decide, by decide, by decide⟩

/-- C7 (amended): only the Amex extractor returns the de-duplicated set of
canonical names (every returned cardholder is in the image of
`normalize_name`, with no duplicates).  The SVB extractor returns its raw
section keys — de-duplicated as raw strings, since sections are keyed by
exact string — and the Bradesco extractor returns the single raw holder
string discovered from the `Nome:` line, with no canonical normalization. -/
theorem cardholders_policy_by_issuer :
    (∀ lines : List String,
      (Amex.extract_amex lines).cardholders.Nodup ∧
      (∀ c ∈ (Amex.extract_amex lines).cardholders, ∃ raw, c = normalize_name raw)) ∧
    (∀ lines : List String, (Svb.extract_svb lines).cardholders.Nodup) ∧
    (∀ (fetch : Date → Bradesco.FetchResult) (nowYear : Nat) (lines : List String)
      (res : Bradesco.BradescoResult),
      Bradesco.extract_bradesco fetch nowYear lines = Except.ok res →
      res.cardholders = [Bradesco.bradescoHolder (lines.map Bradesco.normalize)]) := by
  refine ⟨?_, ?_, ?_⟩
  · intro lines
    constructor
    · exact List.nodup_dedup _
    · intro c hc
      simp only [Amex.extract_amex] at hc
      obtain ⟨p, _, hp⟩ := List.mem_map.mp (List.mem_dedup.mp hc)
      exact ⟨p.1, hp.symm⟩
  · intro lines
    simp only [Svb.extract_svb]
    split
    · exact extendAt_keys_nodup
        (svbFold_keys_nodup lines lines.enum ⟨[], []⟩ List.nodup_nil)
    · exact svbFold_keys_nodup lines lines.enum ⟨[], []⟩ List.nodup_nil
  · intro fetch nowYear lines res h
    unfold Bradesco.extract_bradesco at h
    simp only [] at h
    split at h
    · exact absurd h (by simp)
    · rename_i txs heq
      injection h with h'
      subst h'
      rfl

/-- C7 witness: the three conjuncts at concrete documents. -/
theorem cardholders_policy_by_issuer_witness :
    (Amex.extract_amex ["SCOTT SOBEL", "CARD ENDING 1234",
      "01/15/24 FOO -$ 5.00"]).cardholders.Nodup ∧
    (∃ raw, "Scott Sobel" = normalize_name raw) ∧
    (Svb.extract_svb ["01-15-24 COFFEE $5.00",
      "C. SOBEL TOTAL FOR ACCOUNT ENDING IN 1234"]).cardholders.Nodup ∧
    (Bradesco.BradescoResult.mk "bradesco" [] ["FELIPE M SANTOS"]).cardholders =
      [Bradesco.bradescoHolder (["Nome: FELIPE M SANTOS"].map Bradesco.normalize)] :=
  ⟨(cardholders_policy_by_issuer.1 _).1,
   (cardholders_policy_by_issuer.1 ["SCOTT SOBEL", "CARD ENDING 1234",
      "01/15/24 FOO -$ 5.00"]).2 "Scott Sobel" (by decide),
   cardholders_policy_by_issuer.2.1 _,
   cardholders_policy_by_issuer.2.2 fetchFive 2024 ["Nome: FELIPE M SANTOS"] _ (by rfl)⟩

theorem subDays_prevDay (d : Date) : ∀ j, subDays (prevDay d) j = subDays d (j + 1) := by
  intro j
  induction j with
  | zero => rfl
  | succ j ih =>
    show prevDay (subDays (prevDay d) j) = prevDay (subDays d (j + 1))
    rw [ih]

theorem range_map_subDays (dt : Date) (k : Nat) :
    (List.range (k + 1)).map (subDays dt) =
      dt :: (List.range k).map (subDays (prevDay dt)) := by
  rw [List.range_succ_eq_map, List.map_cons, List.map_map]
  refine congrArg₂ _ rfl ?_
  exact List.map_congr_left (fun j _ => (subDays_prevDay dt j).symm)

theorem ptaxWalk_succ_eq (fetch : Date → Bradesco.FetchResult) (n : Nat) (dt : Date) :
    Bradesco.ptaxWalk fetch (n + 1) dt =
      (match fetch dt with
       | Bradesco.FetchResult.err => (none, [dt])
       | Bradesco.FetchResult.ok valores =>
         match valores.getLast? with
         | some v => (some v, [dt])
         | none =>
           ((Bradesco.ptaxWalk fetch n (prevDay dt)).1,
            dt :: (Bradesco.ptaxWalk fetch n (prevDay dt)).2)) := rfl

theorem ptaxWalk_succ_err {fetch : Date → Bradesco.FetchResult} {dt : Date}
    (n : Nat) (h : fetch dt = Bradesco.FetchResult.err) :
    Bradesco.ptaxWalk fetch (n + 1) dt = (none, [dt]) := by
  rw [ptaxWalk_succ_eq, h]

theorem ptaxWalk_succ_hit {fetch : Date → Bradesco.FetchResult} {dt : Date}
    {vs : List ℚ} {v : ℚ} (n : Nat) (h : fetch dt = Bradesco.FetchResult.ok vs)
    (hl : vs.getLast? = some v) :
    Bradesco.ptaxWalk fetch (n + 1) dt = (some v, [dt]) := by
  rw [ptaxWalk_succ_eq, h]
  show (match vs.getLast? with
        | some w => (some w, [dt])
        | none =>
          ((Bradesco.ptaxWalk fetch n (prevDay dt)).1,
           dt :: (Bradesco.ptaxWalk fetch n (prevDay dt)).2)) = (some v, [dt])
  rw [hl]

theorem ptaxWalk_succ_cont {fetch : Date → Bradesco.FetchResult} {dt : Date}
    {vs : List ℚ} (n : Nat) (h : fetch dt = Bradesco.FetchResult.ok vs)
    (hl : vs.getLast? = none) :
    Bradesco.ptaxWalk fetch (n + 1) dt =
      ((Bradesco.ptaxWalk fetch n (prevDay dt)).1,
       dt :: (Bradesco.ptaxWalk fetch n (prevDay dt)).2) := by
  rw [ptaxWalk_succ_eq, h]
  show (match vs.getLast? with
        | some w => (some w, [dt])
        | none =>
          ((Bradesco.ptaxWalk fetch n (prevDay dt)).1,
           dt :: (Bradesco.ptaxWalk fetch n (prevDay dt)).2)) = _
  rw [hl]

theorem ptaxWalk_len : ∀ (n : Nat) (fetch : Date → Bradesco.FetchResult) (dt : Date),
    (Bradesco.ptaxWalk fetch n dt).2.length ≤ n := by
  intro n
  induction n with
  | zero => intro fetch dt; exact Nat.le_refl 0
  | succ n ih =>
    intro fetch dt
    cases hf : fetch dt with
    | err => rw [ptaxWalk_succ_err n hf]; simp
    | ok vs =>
      cases hl : vs.getLast? with
      | some v => rw [ptaxWalk_succ_hit n hf hl]; simp
      | none =>
        rw [ptaxWalk_succ_cont n hf hl]
        exact Nat.succ_le_succ (ih fetch (prevDay dt))

theorem ptaxWalk_hit : ∀ (n : Nat) (fetch : Date → Bradesco.FetchResult) (dt : Date)
    (k : Nat) (vs : List ℚ) (v : ℚ), k < n →
    (∀ j, j < k → fetch (subDays dt j) = Bradesco.FetchResult.ok []) →
    fetch (subDays dt k) = Bradesco.FetchResult.ok vs → vs.getLast? = some v →
    Bradesco.ptaxWalk fetch n dt = (some v, (List.range (k + 1)).map (subDays dt)) := by
  intro n
  induction n with
  | zero => intro fetch dt k vs v hk; exact absurd hk (Nat.not_lt_zero k)
  | succ n ih =>
    intro fetch dt k vs v hk hprev hhit hlast
    cases k with
    | zero => exact ptaxWalk_succ_hit n hhit hlast
    | succ k' =>
      have hf : fetch dt = Bradesco.FetchResult.ok [] := hprev 0 (Nat.succ_pos k')
      have hrec := ih fetch (prevDay dt) k' vs v (by omega)
        (fun j hj => by rw [subDays_prevDay]; exact hprev (j + 1) (by omega))
        (by rw [subDays_prevDay]; exact hhit) hlast
      rw [ptaxWalk_succ_cont n hf rfl, range_map_subDays, hrec]

theorem ptaxWalk_err : ∀ (n : Nat) (fetch : Date → Bradesco.FetchResult) (dt : Date)
    (k : Nat), k < n →
    (∀ j, j < k → fetch (subDays dt j) = Bradesco.FetchResult.ok []) →
    fetch (subDays dt k) = Bradesco.FetchResult.err →
    Bradesco.ptaxWalk fetch n dt = (none, (List.range (k + 1)).map (subDays dt)) := by
  intro n
  induction n with
  | zero => intro fetch dt k hk; exact absurd hk (Nat.not_lt_zero k)
  | succ n ih =>
    intro fetch dt k hk hprev herr
    cases k with
    | zero => exact ptaxWalk_succ_err n herr
    | succ k' =>
      have hf : fetch dt = Bradesco.FetchResult.ok [] := hprev 0 (Nat.succ_pos k')
      have hrec := ih fetch (prevDay dt) k' (by omega)
        (fun j hj => by rw [subDays_prevDay]; exact hprev (j + 1) (by omega))
        (by rw [subDays_prevDay]; exact herr)
      rw [ptaxWalk_succ_cont n hf rfl, range_map_subDays, hrec]

theorem ptaxWalk_exhaust : ∀ (n : Nat) (fetch : Date → Bradesco.FetchResult) (dt : Date),
    (∀ j, j < n → fetch (subDays dt j) = Bradesco.FetchResult.ok []) →
    Bradesco.ptaxWalk fetch n dt = (none, (List.range n).map (subDays dt)) := by
  intro n
  induction n with
  | zero => intro fetch dt _; rfl
  | succ n ih =>
    intro fetch dt hall
    have hf : fetch dt = Bradesco.FetchResult.ok [] := hall 0 (Nat.succ_pos n)
    have hrec := ih fetch (prevDay dt)
      (fun j hj => by rw [subDays_prevDay]; exact hall (j + 1) (by omega))
    rw [ptaxWalk_succ_cont n hf rfl, range_map_subDays, hrec]

theorem ptaxWalk_dates : ∀ (n : Nat) (fetch : Date → Bradesco.FetchResult) (dt : Date),
    (Bradesco.ptaxWalk fetch n dt).2 =
      (List.range (Bradesco.ptaxWalk fetch n dt).2.length).map (subDays dt) := by
  intro n
  induction n with
  | zero => intro fetch dt; rfl
  | succ n ih =>
    intro fetch dt
    cases hf : fetch dt with
    | err =>
      rw [ptaxWalk_succ_err n hf]
      rfl
    | ok vs =>
      cases hl : vs.getLast? with
      | some v =>
        rw [ptaxWalk_succ_hit n hf hl]
        rfl
      | none =>
        rw [ptaxWalk_succ_cont n hf hl]
        show dt :: (Bradesco.ptaxWalk fetch n (prevDay dt)).2 =
          (List.range ((Bradesco.ptaxWalk fetch n (prevDay dt)).2.length + 1)).map
            (subDays dt)
        rw [range_map_subDays]
        exact congrArg (dt :: ·) (ih fetch (prevDay dt))

theorem alookup_cons_self {β : Type} (k : String) (v : β) (l : List (String × β)) :
    alookup ((k, v) :: l) k = some v := by
  unfold alookup
  rw [List.find?_cons_of_pos]
  · rfl
  · simp

theorem get_cotacao_cached (fetch : Date → Bradesco.FetchResult) (diso : String)
    (cache : Bradesco.FxCache) (v : Option ℚ) (h : alookup cache diso = some v) :
    Bradesco.get_cotacao_dolar_ptax fetch diso cache = Except.ok (v, cache, []) := by
  unfold Bradesco.get_cotacao_dolar_ptax
  rw [h]

theorem get_cotacao_uncached (fetch : Date → Bradesco.FetchResult) (diso : String)
    (cache : Bradesco.FxCache) (dt : Date) (h1 : alookup cache diso = none)
    (h2 : parseIsoDate diso = some dt) :
    Bradesco.get_cotacao_dolar_ptax fetch diso cache =
      Except.ok ((Bradesco.ptaxWalk fetch 7 dt).1,
        (diso, (Bradesco.ptaxWalk fetch 7 dt).1) :: cache,
        (Bradesco.ptaxWalk fetch 7 dt).2) := by
  unfold Bradesco.get_cotacao_dolar_ptax
  rw [h1, h2]

/-- C3: the Bradesco PTAX lookup policy — (1) at most 7 service contacts per
lookup, stepping backward exactly one calendar day at a time from the
requested date; (2) the first date with a non-empty quote list supplies the
rate (the last entry of its list); (3) a network error makes the rate null;
(4) seven empty days make the rate null; (5) an uncached lookup stores its
outcome — rate or null — in the per-run cache under the originally requested
date string; (6) a cached date answers without any service contact, so
(7) repeating a lookup performs zero contacts; and (8) a null rate gives a
null final amount while the record retains its `amount_brl`. -/
theorem bradesco_fx_lookup_policy :
    (∀ (fetch : Date → Bradesco.FetchResult) (dt : Date),
      (Bradesco.ptaxWalk fetch 7 dt).2.length ≤ 7 ∧
      (Bradesco.ptaxWalk fetch 7 dt).2 =
        (List.range (Bradesco.ptaxWalk fetch 7 dt).2.length).map (subDays dt)) ∧
    (∀ (fetch : Date → Bradesco.FetchResult) (dt : Date) (k : Nat) (vs : List ℚ) (v : ℚ),
      k < 7 → (∀ j, j < k → fetch (subDays dt j) = Bradesco.FetchResult.ok []) →
      fetch (subDays dt k) = Bradesco.FetchResult.ok vs → vs.getLast? = some v →
      Bradesco.ptaxWalk fetch 7 dt = (some v, (List.range (k + 1)).map (subDays dt))) ∧
    (∀ (fetch : Date → Bradesco.FetchResult) (dt : Date) (k : Nat),
      k < 7 → (∀ j, j < k → fetch (subDays dt j) = Bradesco.FetchResult.ok []) →
      fetch (subDays dt k) = Bradesco.FetchResult.err →
      Bradesco.ptaxWalk fetch 7 dt = (none, (List.range (k + 1)).map (subDays dt))) ∧
    (∀ (fetch : Date → Bradesco.FetchResult) (dt : Date),
      (∀ j, j < 7 → fetch (subDays dt j) = Bradesco.FetchResult.ok []) →
      Bradesco.ptaxWalk fetch 7 dt = (none, (List.range 7).map (subDays dt))) ∧
    (∀ (fetch : Date → Bradesco.FetchResult) (diso : String) (cache : Bradesco.FxCache)
      (dt : Date), alookup cache diso = none → parseIsoDate diso = some dt →
      Bradesco.get_cotacao_dolar_ptax fetch diso cache =
        Except.ok ((Bradesco.ptaxWalk fetch 7 dt).1,
          (diso, (Bradesco.ptaxWalk fetch 7 dt).1) :: cache,
          (Bradesco.ptaxWalk fetch 7 dt).2)) ∧
    (∀ (fetch : Date → Bradesco.FetchResult) (diso : String) (cache : Bradesco.FxCache)
      (v : Option ℚ), alookup cache diso = some v →
      Bradesco.get_cotacao_dolar_ptax fetch diso cache = Except.ok (v, cache, [])) ∧
    (∀ (fetch : Date → Bradesco.FetchResult) (diso : String) (cache : Bradesco.FxCache)
      (r : Option ℚ) (c' : Bradesco.FxCache) (ds : List Date),
      Bradesco.get_cotacao_dolar_ptax fetch diso cache = Except.ok (r, c', ds) →
      Bradesco.get_cotacao_dolar_ptax fetch diso c' = Except.ok (r, c', [])) ∧
    (∀ row : Bradesco.BradescoRow,
      (Bradesco.mkBradescoTx row none).amount = none ∧
      ∀ rate, (Bradesco.mkBradescoTx row rate).amount_brl = row.amount_brl) := by
  refine ⟨?_, fun fetch dt k vs v => ptaxWalk_hit 7 fetch dt k vs v,
    fun fetch dt k => ptaxWalk_err 7 fetch dt k,
    fun fetch dt => ptaxWalk_exhaust 7 fetch dt,
    fun fetch diso cache dt => get_cotacao_uncached fetch diso cache dt,
    fun fetch diso cache v => get_cotacao_cached fetch diso cache v, ?_, ?_⟩
  · intro fetch dt
    exact ⟨ptaxWalk_len 7 fetch dt, ptaxWalk_dates 7 fetch dt⟩
  · intro fetch diso cache r c' ds h
    unfold Bradesco.get_cotacao_dolar_ptax at h
    cases hc : alookup cache diso with
    | some v =>
      rw [hc] at h
      injection h with h'
      obtain ⟨rfl, rfl, rfl⟩ : v = r ∧ cache = c' ∧ ([] : List Date) = ds := by
        simpa [Prod.ext_iff] using h'
      exact get_cotacao_cached fetch diso _ _ hc
    | none =>
      rw [hc] at h
      cases hp : parseIsoDate diso with
      | none =>
        rw [hp] at h
        exact absurd h (by simp)
      | some dt =>
        rw [hp] at h
        injection h with h'
        obtain ⟨rfl, rfl, rfl⟩ : (Bradesco.ptaxWalk fetch 7 dt).1 = r ∧
            (diso, (Bradesco.ptaxWalk fetch 7 dt).1) :: cache = c' ∧
            (Bradesco.ptaxWalk fetch 7 dt).2 = ds := by
          simpa [Prod.ext_iff] using h'
        exact get_cotacao_cached fetch diso _ _ (alookup_cons_self diso _ cache)
  · intro row
    refine ⟨?_, fun rate => rfl⟩
    show Bradesco.bradescoFinalAmount row.amount_brl none = none
    cases row.amount_brl <;> rfl

/-- C3 witness: the FX policy conjuncts instantiated at concrete services
and dates — a two-day backward walk that finds `[4, 5]` on 2024-01-13 and
takes its last entry, an all-empty service, an erroring service, cached and
uncached lookups, a repeated lookup, and a null-rate record. -/
theorem bradesco_fx_lookup_policy_witness :
    Bradesco.ptaxWalk fetchHitTwo 7 ⟨2024, 1, 15⟩ =
      (some 5, (List.range (2 + 1)).map (subDays ⟨2024, 1, 15⟩)) ∧
    Bradesco.ptaxWalk fetchNone 7 ⟨2024, 1, 15⟩ =
      (none, (List.range 7).map (subDays ⟨2024, 1, 15⟩)) ∧
    Bradesco.ptaxWalk fetchErr 7 ⟨2024, 1, 15⟩ =
      (none, (List.range (0 + 1)).map (subDays ⟨2024, 1, 15⟩)) ∧
    Bradesco.get_cotacao_dolar_ptax fetchFive "2024-01-15" [] =
      Except.ok ((Bradesco.ptaxWalk fetchFive 7 ⟨2024, 1, 15⟩).1,
        ("2024-01-15", (Bradesco.ptaxWalk fetchFive 7 ⟨2024, 1, 15⟩).1) :: [],
        (Bradesco.ptaxWalk fetchFive 7 ⟨2024, 1, 15⟩).2) ∧
    Bradesco.get_cotacao_dolar_ptax fetchFive "2024-01-15" [("2024-01-15", some 3)] =
      Except.ok (some 3, [("2024-01-15", some 3)], []) ∧
    Bradesco.get_cotacao_dolar_ptax fetchFive "2024-01-15" [("2024-01-15", some 5)] =
      Except.ok (some 5, [("2024-01-15", some 5)], []) ∧
    (Bradesco.mkBradescoTx ⟨"2024-01-15", "FOO", none, some 9, "H"⟩ none).amount = none ∧
    (Bradesco.mkBradescoTx ⟨"2024-01-15", "FOO", none, some 9, "H"⟩ (some 5)).amount_brl =
      some 9 :=
  ⟨bradesco_fx_lookup_policy.2.1 fetchHitTwo ⟨2024, 1, 15⟩ 2 [4, 5] 5 (by decide)
      (by decide) (by decide) (by decide),
   bradesco_fx_lookup_policy.2.2.2.1 fetchNone ⟨2024, 1, 15⟩ (by decide),
   bradesco_fx_lookup_policy.2.2.1 fetchErr ⟨2024, 1, 15⟩ 0 (by decide) (by decide)
      (by decide),
   bradesco_fx_lookup_policy.2.2.2.2.1 fetchFive "2024-01-15" [] ⟨2024, 1, 15⟩
      (by decide) (by decide),
   bradesco_fx_lookup_policy.2.2.2.2.2.1 fetchFive "2024-01-15"
      [("2024-01-15", some 3)] (some 3) (by decide),
   bradesco_fx_lookup_policy.2.2.2.2.2.2.1 fetchFive "2024-01-15" []
      (some 5) [("2024-01-15", some 5)] [⟨2024, 1, 15⟩] (by rfl),
   (bradesco_fx_lookup_policy.2.2.2.2.2.2.2 ⟨"2024-01-15", "FOO", none, some 9, "H"⟩).1,
   (bradesco_fx_lookup_policy.2.2.2.2.2.2.2
      ⟨"2024-01-15", "FOO", none, some 9, "H"⟩).2 (some 5)⟩

end Expenses
